/-
  Verification of the bofuri-mj game-master aid against its specification.

  Shallow embedding of the repository's core modules:
  * `src/rules.py`          — combat resolution (`resolve_attack`)
  * `src/variant_interp.py` — monster variant interpolation
  * `src/md_parser.py`      — markdown compendium parsing
  * `src/models.py`         — data model and (de)serialization

  Python floats are modelled as exact rationals (ℚ); Python `round` is
  modelled as round-half-to-even (`pyRound`).  In-place mutation of the
  two combat entities is modelled by returning updated copies.  Fallible
  operations (Python exceptions) are modelled with `Option`.
-/
import Mathlib

namespace Bofuri

/-- Python scalar values that can sit in a loosely typed field such as
`MonsterVariant.base_attack` (declared `Optional[float]` but in practice
holding `None`, a float, or a string produced by the markdown scanner). -/
inductive PyScalar where
  | none
  | num (q : ℚ)
  | str (s : String)
deriving DecidableEq, Repr

/-- Values stored in an `extra` mapping: the repository only ever stores
strings (labels, ad-hoc key/value lines) and lists of strings (abilities). -/
inductive ExtraVal where
  | str (s : String)
  | strList (l : List String)
deriving DecidableEq, Repr

/-- An `extra` mapping: `None` or a string-keyed dict. -/
abbrev ExtraMap := Option (List (String × ExtraVal))

/-- Python truthiness of a `PyScalar` (`None`, `0.0` and `""` are falsy). -/
def PyScalar.truthy : PyScalar → Bool
  | .none => false
  | .num q => q ≠ 0
  | .str s => s ≠ ""

/-- Python `x or 0.0` on a scalar. -/
def PyScalar.orZero (v : PyScalar) : PyScalar :=
  if v.truthy then v else .num 0

/-- Digit value of a character, when it is an ASCII digit. -/
def charDigit (c : Char) : Option Nat :=
  if 48 ≤ c.toNat ∧ c.toNat ≤ 57 then some (c.toNat - 48) else none

/-- Interpret a list of ASCII digit characters as a natural number
(most significant first). -/
def digitsToNat (cs : List Char) : Nat :=
  cs.foldl (fun n c => n * 10 + (c.toNat - 48)) 0

def isDigitChar (c : Char) : Bool := 48 ≤ c.toNat && c.toNat ≤ 57

/-- Python `float(s)` on a plain decimal numeral: optional surrounding
whitespace, optional sign, digits with an optional fractional part.
(Exponent and inf/nan forms do not occur in this repository's data and
are not modelled.)  Returns `Option.none` where Python raises `ValueError`. -/
def pyFloatOfString (s : String) : Option ℚ :=
  let cs := (s.toList.dropWhile Char.isWhitespace).reverse.dropWhile Char.isWhitespace |>.reverse
  let (sign, cs) : ℚ × List Char :=
    match cs with
    | '-' :: rest => (-1, rest)
    | '+' :: rest => (1, rest)
    | _ => (1, cs)
  let intPart := cs.takeWhile isDigitChar
  let rest := cs.dropWhile isDigitChar
  match rest with
  | [] =>
    if intPart.isEmpty then Option.none
    else some (sign * (digitsToNat intPart : ℚ))
  | '.' :: frac =>
    if ¬ (frac.all isDigitChar) then Option.none
    else if intPart.isEmpty ∧ frac.isEmpty then Option.none
    else some (sign * ((digitsToNat intPart : ℚ) +
      (digitsToNat frac : ℚ) / (10 : ℚ) ^ frac.length))
  | _ => Option.none

/-- Python `float(x)` on a scalar (`None` and non-numeric strings raise). -/
def PyScalar.toFloat : PyScalar → Option ℚ
  | .none => Option.none
  | .num q => some q
  | .str s => pyFloatOfString s

/-- Python 3 `round` to the nearest integer, halves to even (banker's
rounding), returned as a rational (the code wraps it in `float(...)`). -/
def pyRound (q : ℚ) : ℚ :=
  let f : ℤ := q.floor
  let r : ℚ := q - f
  if r < 1/2 then (f : ℚ)
  else if r > 1/2 then ((f + 1 : ℤ) : ℚ)
  else if f % 2 = 0 then (f : ℚ) else ((f + 1 : ℤ) : ℚ)

-- ----------------------------
-- models.py : RuntimeEntity
-- ----------------------------

/-- `models.RuntimeEntity` — the combat-ready snapshot mutated by
`resolve_attack`.  Stat and HP/MP fields are Python floats (ℚ here). -/
structure RuntimeEntity where
  name : String
  kind : String
  level : ℤ
  hp_max : ℚ
  mp_max : ℚ
  STR : ℚ
  AGI : ℚ
  INT : ℚ
  DEX : ℚ
  VIT : ℚ
  hp : ℚ
  mp : ℚ
  base_attack : Option ℚ := Option.none
  zone : Option String := Option.none
  drops : Option (List String) := Option.none
  abilities : Option (List String) := Option.none
  extra : ExtraMap := Option.none
deriving DecidableEq, Repr

-- ----------------------------
-- rules.py : combat resolution
-- ----------------------------

/-- `rules.AttackType` — the `Literal["phys", "magic", "ranged"]` type. -/
inductive AttackType where
  | phys
  | magic
  | ranged
deriving DecidableEq, Repr

/-- `rules._attack_stat` — attack stat selected by attack type. -/
def attack_stat_of (attacker : RuntimeEntity) : AttackType → ℚ
  | .phys => attacker.STR
  | .magic => attacker.INT
  | .ranged => attacker.DEX

/-- `rules._defense_stat` — VIT plus a 20% contribution from a secondary
stat keyed to the attack type. -/
def defense_stat_of (defender : RuntimeEntity) : AttackType → ℚ
  | .phys => defender.VIT + defender.STR * (2/10)
  | .magic => defender.VIT + defender.INT * (2/10)
  | .ranged => defender.VIT + defender.AGI * (2/10)

/-- The damage multiplier applied on a hit, per attack type
(`rules.resolve_attack`, hit branch). -/
def hitMultiplier (attack_type : AttackType) (roll_a : ℚ) : ℚ :=
  match attack_type with
  | .phys => 1
  | .magic => if roll_a > 15 then 12/10 else 9/10
  | .ranged => 95/100

/-- The counter-damage multiplier applied when the defender holds and
`defense_power > 0` (`rules.resolve_attack`, defense branch). -/
def counterMultiplier : AttackType → ℚ
  | .phys => 1
  | .magic => 7/10
  | .ranged => 5/10

/-- The outcome dictionary of `rules.resolve_attack`.  The advisory
human-readable `effects` strings are not modelled (they carry no data
beyond the fields below). -/
structure AttackOutcome where
  hit : Bool
  roll_a : ℚ
  roll_b : ℚ
  attack_type : AttackType
  perce_armure : Bool
  vit_scale_div : ℚ
  atk_stat : ℚ
  defense_stat : ℚ
  damage : Option ℚ := Option.none
  defense_value : Option ℚ := Option.none
deriving DecidableEq, Repr

/-- `rules.resolve_attack` — resolves one exchange.  The Python function
mutates `attacker.hp` / `defender.hp` in place; here the updated entities
are returned alongside the outcome dictionary.
(With `vit_scale_div = 0` Python would raise `ZeroDivisionError` before
touching either entity; Lean's `q / 0 = 0` convention makes the model
total there.) -/
def resolve_attack (attacker defender : RuntimeEntity) (roll_a roll_b : ℚ)
    (attack_type : AttackType := .phys) (perce_armure : Bool := false)
    (vit_scale_div : ℚ := 100) :
    AttackOutcome × RuntimeEntity × RuntimeEntity :=
  let defense_stat := defense_stat_of defender attack_type
  let vit_term := defense_stat / vit_scale_div
  let atk := attack_stat_of attacker attack_type
  let base : AttackOutcome :=
    { hit := false, roll_a := roll_a, roll_b := roll_b,
      attack_type := attack_type, perce_armure := perce_armure,
      vit_scale_div := vit_scale_div, atk_stat := atk,
      defense_stat := defense_stat }
  if roll_a > roll_b then
    -- attacker hits
    let dmg0 := ((roll_a - roll_b) + atk) * hitMultiplier attack_type roll_a
    let dmg1 := if ¬ perce_armure then dmg0 - vit_term
                else dmg0 - vit_term * (3/10)
    let dmg := max 0 dmg1
    let defender' := { defender with hp := max 0 (defender.hp - dmg) }
    ({ base with hit := true, damage := some dmg }, attacker, defender')
  else
    -- defender holds
    let defense_power := (roll_b - roll_a) + vit_term - atk
    let out := { base with defense_value := some defense_power }
    if defense_power > 0 then
      let contrecoup := defense_power * counterMultiplier attack_type
      let attacker' := { attacker with hp := max 0 (attacker.hp - contrecoup) }
      (out, attacker', defender)
    else
      (out, attacker, defender)

-- ----------------------------
-- models.py : compendium data model
-- ----------------------------

/-- `models.MonsterVariant` — per-level stat snapshot.  `base_attack` is
declared `Optional[float]` in the source but the markdown scanner stores the
raw string, so it is modelled as a loose `PyScalar`. -/
structure MonsterVariant where
  level : ℤ
  hp_max : ℚ
  mp_max : ℚ
  STR : ℚ
  AGI : ℚ
  INT : ℚ
  DEX : ℚ
  VIT : ℚ
  base_attack : PyScalar := .none
  extra : ExtraMap := Option.none
deriving DecidableEq, Repr

/-- `models.Monster`.  The `variants` dict (level → variant) is modelled as
an association list in insertion order; `Option.none` models the dataclass
default `None`. -/
structure Monster where
  name : String
  palier : Option String := Option.none
  level_range : Option String := Option.none
  rarity : Option String := Option.none
  zone : Option String := Option.none
  drops : Option (List String) := Option.none
  abilities : Option (List String) := Option.none
  variants : Option (List (ℤ × MonsterVariant)) := Option.none
deriving DecidableEq, Repr

/-- `models.Skill`. -/
structure Skill where
  name : String
  category : Option String := Option.none
  description : Option String := Option.none
  cost_mp : Option String := Option.none
  condition : Option String := Option.none
  palier : Option String := Option.none
deriving DecidableEq, Repr

/-- `models.Compendium`: the two name-keyed mappings, in insertion order. -/
structure Compendium where
  monsters : List (String × Monster)
  skills : List (String × Skill)
deriving DecidableEq, Repr

-- ----------------------------
-- variant_interp.py
-- ----------------------------

/-- `variant_interp._lerp`. -/
def _lerp (a b t : ℚ) : ℚ := a + (b - a) * t

/-- `variant_interp._round_stat` — `float(round(x))`. -/
def _round_stat (x : ℚ) : ℚ := pyRound x

/-- The stats dict built by `_extract_stats_from_abilities` /
`_extract_variant_fields`. -/
structure StatsMap where
  hp_max : ℚ
  mp_max : ℚ
  STR : ℚ
  AGI : ℚ
  INT : ℚ
  DEX : ℚ
  VIT : ℚ
  base_attack : ℚ
deriving DecidableEq, Repr

/-- All-zero stats dict (initial value in `_extract_stats_from_abilities`). -/
def zeroStats : StatsMap := ⟨0, 0, 0, 0, 0, 0, 0, 0⟩

/-- Strip an exact literal off the front of a character list
(one alternative of an anchored `re.match`). -/
def dropLit : List Char → List Char → Option (List Char)
  | [], s => some s
  | _ :: _, [] => Option.none
  | c :: cs, d :: ds => if c = d then dropLit cs ds else Option.none

/-- `\s*` — skip optional whitespace. -/
def skipWS (s : List Char) : List Char := s.dropWhile Char.isWhitespace

/-- `\s+` — require at least one whitespace character, then skip the run. -/
def skipWS1 : List Char → Option (List Char)
  | c :: rest => if c.isWhitespace then some (skipWS rest) else Option.none
  | [] => Option.none

/-- `(\d+)` — a non-empty digit run, greedily, returning its value and the
remaining characters. -/
def takeDigits1 (s : List Char) : Option (Nat × List Char) :=
  let ds := s.takeWhile isDigitChar
  if ds.isEmpty then Option.none
  else some (digitsToNat ds, s.dropWhile isDigitChar)

/-- Anchored match of `KEY\s*:\s*(\d+)` (trailing text ignored), as used by
the `HP`, `MP` and five-attribute patterns of
`variant_interp._extract_stats_from_abilities`. -/
def matchKeyNat (key : String) (s : String) : Option Nat := do
  let r ← dropLit key.toList s.toList
  let r ← dropLit [':'] (skipWS r)
  let (n, _) ← takeDigits1 (skipWS r)
  pure n

/-- The five core attribute names, in the regex alternation's order. -/
inductive CoreStat where
  | STR | AGI | INT | DEX | VIT
deriving DecidableEq, Repr

def coreStatName : CoreStat → String
  | .STR => "STR"
  | .AGI => "AGI"
  | .INT => "INT"
  | .DEX => "DEX"
  | .VIT => "VIT"

/-- Anchored match of `(STR|AGI|INT|DEX|VIT)\s*:\s*(\d+)`. -/
def matchCoreStat (s : String) : Option (CoreStat × Nat) :=
  [CoreStat.STR, .AGI, .INT, .DEX, .VIT].findSome?
    (fun k => (matchKeyNat (coreStatName k) s).map (fun n => (k, n)))

/-- Anchored match of `Attaque\s+de\s+base\s*:\s*(\d+)`, returning the raw
digit capture. -/
def matchAtkDigits (s : String) : Option (List Char) := do
  let r ← dropLit "Attaque".toList s.toList
  let r ← skipWS1 r
  let r ← dropLit "de".toList r
  let r ← skipWS1 r
  let r ← dropLit "base".toList r
  let r ← dropLit [':'] (skipWS r)
  let r := skipWS r
  let ds := r.takeWhile isDigitChar
  if ds.isEmpty then Option.none else some ds

/-- Anchored match of `Attaque\s+de\s+base\s*:\s*(\d+)`, as a number. -/
def matchAtkNat (s : String) : Option Nat :=
  (matchAtkDigits s).map digitsToNat

/-- Store a value under a core attribute key. -/
def StatsMap.setCore (st : StatsMap) : CoreStat → ℚ → StatsMap
  | .STR, v => { st with STR := v }
  | .AGI, v => { st with AGI := v }
  | .INT, v => { st with INT := v }
  | .DEX, v => { st with DEX := v }
  | .VIT, v => { st with VIT := v }

/-- `variant_interp._extract_stats_from_abilities` — scans each ability
line for the `HP`/`MP`/attribute/`Attaque de base` patterns (in the source's
priority order); later lines overwrite earlier values. -/
def _extract_stats_from_abilities (abilities : List String) : StatsMap :=
  abilities.foldl
    (fun st ab =>
      match matchKeyNat "HP" ab with
      | some n => { st with hp_max := (n : ℚ) }
      | Option.none =>
        match matchKeyNat "MP" ab with
        | some n => { st with mp_max := (n : ℚ) }
        | Option.none =>
          match matchCoreStat ab with
          | some (k, n) => st.setCore k (n : ℚ)
          | Option.none =>
            match matchAtkNat ab with
            | some n => { st with base_attack := (n : ℚ) }
            | Option.none => st)
    zeroStats

/-- `variant_interp._extract_extra` — the variant's `extra` dict, or `{}`. -/
def _extract_extra (v : MonsterVariant) : List (String × ExtraVal) :=
  v.extra.getD []

/-- First binding of a key in a string-keyed dict. -/
def dictGet (m : List (String × ExtraVal)) (k : String) : Option ExtraVal :=
  (m.find? (fun p => p.1 = k)).map Prod.snd

/-- `extra.get("abilities", [])`, as iterated by the fallback extractor.
A stray plain string there would be iterated character by character by
Python, hence the `.str` case. -/
def getAbilities (extra : List (String × ExtraVal)) : List String :=
  match dictGet extra "abilities" with
  | some (.strList l) => l
  | some (.str s) => s.toList.map (fun c => String.mk [c])
  | Option.none => []

/-- `float(x or 0.0)` on a loose scalar field. -/
def floatOrZero (v : PyScalar) : Option ℚ := v.orZero.toFloat

/-- The all-zero test of `_extract_variant_fields` over the seven core
stats (`base_attack` excluded). -/
def coreStatsZero (v : MonsterVariant) : Prop :=
  v.hp_max = 0 ∧ v.mp_max = 0 ∧ v.STR = 0 ∧ v.AGI = 0 ∧ v.INT = 0 ∧
    v.DEX = 0 ∧ v.VIT = 0

instance (v : MonsterVariant) : Decidable (coreStatsZero v) := by
  unfold coreStatsZero; infer_instance

/-- The update loop `for k, v in ability_stats.items(): if v > 0:
base_stats[k] = v` — replace each field by the extracted value when that
value is positive. -/
def mergePositive (base ab : StatsMap) : StatsMap :=
  { hp_max := if ab.hp_max > 0 then ab.hp_max else base.hp_max,
    mp_max := if ab.mp_max > 0 then ab.mp_max else base.mp_max,
    STR := if ab.STR > 0 then ab.STR else base.STR,
    AGI := if ab.AGI > 0 then ab.AGI else base.AGI,
    INT := if ab.INT > 0 then ab.INT else base.INT,
    DEX := if ab.DEX > 0 then ab.DEX else base.DEX,
    VIT := if ab.VIT > 0 then ab.VIT else base.VIT,
    base_attack := if ab.base_attack > 0 then ab.base_attack
                   else base.base_attack }

/-- `variant_interp._extract_variant_fields` (dataclass case).  Returns
`Option.none` where Python raises (a `base_attack` string that `float`
rejects). -/
def _extract_variant_fields (v : MonsterVariant) : Option StatsMap := do
  let abilities := getAbilities (_extract_extra v)
  let ba ← floatOrZero v.base_attack
  let base : StatsMap :=
    ⟨v.hp_max, v.mp_max, v.STR, v.AGI, v.INT, v.DEX, v.VIT, ba⟩
  if coreStatsZero v ∧ abilities ≠ [] then
    pure (mergePositive base (_extract_stats_from_abilities abilities))
  else
    pure base

/-- `variant_interp._bounds_for_level`; `Option.none` models the
`ValueError` of `max()`/`min()` on an empty sequence (unreachable from
`interpolated_variant`, which clamps first). -/
def _bounds_for_level (levels : List ℤ) (lvl : ℤ) : Option (ℤ × ℤ) :=
  if lvl ∈ levels then some (lvl, lvl)
  else
    match (levels.filter (fun L => L < lvl)).max?,
          (levels.filter (fun L => L > lvl)).min? with
    | some l0, some l1 => some (l0, l1)
    | _, _ => Option.none

/-- Python `int(s)`: optional surrounding whitespace, optional sign, a
non-empty digit run spanning the rest. -/
def pyIntOfString (s : String) : Option ℤ :=
  let cs := (s.toList.dropWhile Char.isWhitespace).reverse.dropWhile
    Char.isWhitespace |>.reverse
  let sign : ℤ := if cs.head? = some '-' then -1 else 1
  let ds := if cs.head? = some '-' ∨ cs.head? = some '+' then cs.tail else cs
  if ds.isEmpty ∨ ¬ (ds.all isDigitChar) then Option.none
  else some (sign * (digitsToNat ds : ℤ))

/-- `re.search(r'\d+', s)` — value of the first maximal digit run. -/
def firstNatIn : List Char → Option Nat
  | [] => Option.none
  | c :: rest =>
    if isDigitChar c then
      some (digitsToNat ((c :: rest).takeWhile isDigitChar))
    else firstNatIn rest

/-- `variant_interp._extract_level_from_range`: `"a-b"` → floor of the
average; else the first embedded number; else 1. -/
def _extract_level_from_range (level_range : Option String) : ℤ :=
  match level_range with
  | Option.none => 1
  | some s =>
    if s = "" then 1
    else
      let viaSplit : Option ℤ :=
        if s.toList.contains '-' then
          match s.splitOn "-" with
          | [a, b] => do
            let x ← pyIntOfString a
            let y ← pyIntOfString b
            pure (Int.fdiv (x + y) 2)
          | _ => Option.none
        else Option.none
      match viaSplit with
      | some n => n
      | Option.none =>
        match firstNatIn s.toList with
        | some n => (n : ℤ)
        | Option.none => 1

/-- The result dict of `interpolated_variant`. -/
structure VariantOut where
  level : ℤ
  hp_max : ℚ
  mp_max : ℚ
  STR : ℚ
  AGI : ℚ
  INT : ℚ
  DEX : ℚ
  VIT : ℚ
  base_attack : ℚ
  extra : List (String × ExtraVal)
deriving DecidableEq, Repr

/-- The result dict built in each clamp/exact branch of
`interpolated_variant`: every stat rounded except `base_attack`. -/
def roundedOut (lvl : ℤ) (d : StatsMap) (extra : List (String × ExtraVal)) :
    VariantOut :=
  { level := lvl,
    hp_max := _round_stat d.hp_max, mp_max := _round_stat d.mp_max,
    STR := _round_stat d.STR, AGI := _round_stat d.AGI,
    INT := _round_stat d.INT, DEX := _round_stat d.DEX,
    VIT := _round_stat d.VIT,
    base_attack := d.base_attack, extra := extra }

/-- The result dict built in the interpolation branch of
`interpolated_variant`: every stat lerped at fraction
`t = (lvl - b0) / (b1 - b0)` and rounded except `base_attack`; the extra
of the closer bound, ties upward. -/
def lerpOut (lvl b0 b1 : ℤ) (d0 d1 : StatsMap)
    (e0 e1 : List (String × ExtraVal)) : VariantOut :=
  let t : ℚ := ((lvl : ℚ) - (b0 : ℚ)) / ((b1 : ℚ) - (b0 : ℚ))
  { level := lvl,
    hp_max := _round_stat (_lerp d0.hp_max d1.hp_max t),
    mp_max := _round_stat (_lerp d0.mp_max d1.mp_max t),
    STR := _round_stat (_lerp d0.STR d1.STR t),
    AGI := _round_stat (_lerp d0.AGI d1.AGI t),
    INT := _round_stat (_lerp d0.INT d1.INT t),
    DEX := _round_stat (_lerp d0.DEX d1.DEX t),
    VIT := _round_stat (_lerp d0.VIT d1.VIT t),
    base_attack := _lerp d0.base_attack d1.base_attack t,
    extra := if t < 1/2 then e0 else e1 }

/-- First binding of a level key in a variants dict. -/
def lookupLevel (vs : List (ℤ × MonsterVariant)) (l : ℤ) :
    Option MonsterVariant :=
  (vs.find? (fun p => p.1 = l)).map Prod.snd

/-- `sorted(level_map.keys())` — the distinct level keys, ascending. -/
def sortedLevels (vs : List (ℤ × MonsterVariant)) : List ℤ :=
  List.insertionSort (· ≤ ·) (vs.map Prod.fst).dedup

/-- The no-variants branch of `interpolated_variant`: synthesize a variant
from free-text ability lines, scaled by `lvl / inferred_level`. -/
def abilitiesFallback (m : Monster) (lvl : ℤ) : Option VariantOut :=
  match m.abilities with
  | Option.none => Option.none
  | some abs =>
    if abs = [] then Option.none
    else
      let stats := _extract_stats_from_abilities abs
      let monster_level := _extract_level_from_range m.level_range
      let level_factor : ℚ :=
        if monster_level > 0 then (lvl : ℚ) / (monster_level : ℚ) else 1
      some
        { level := lvl,
          hp_max := _round_stat (stats.hp_max * level_factor),
          mp_max := _round_stat (stats.mp_max * level_factor),
          STR := _round_stat (stats.STR * level_factor),
          AGI := _round_stat (stats.AGI * level_factor),
          INT := _round_stat (stats.INT * level_factor),
          DEX := _round_stat (stats.DEX * level_factor),
          VIT := _round_stat (stats.VIT * level_factor),
          base_attack := stats.base_attack * level_factor,
          extra := [("abilities", ExtraVal.strList abs)] }

/-- `variant_interp.interpolated_variant`.  The outer `Option` models a
Python exception (only reachable through a `base_attack` string that
`float` rejects); the inner `Option` is the function's own `None` result.
Level keys are already integers in this model, so `_coerce_level_key`
keeps every entry. -/
def interpolated_variant (m : Monster) (lvl : ℤ) :
    Option (Option VariantOut) :=
  let vs := m.variants.getD []
  if vs = [] then some (abilitiesFallback m lvl)
  else
    let levels := sortedLevels vs
    match levels with
    | [] => some Option.none
    | l0 :: _ =>
      if lvl ≤ l0 then do
        let v ← lookupLevel vs l0
        let d ← _extract_variant_fields v
        pure (some (roundedOut l0 d (_extract_extra v)))
      else
        let llast := levels.getLast?.getD l0
        if lvl ≥ llast then do
          let v ← lookupLevel vs llast
          let d ← _extract_variant_fields v
          pure (some (roundedOut llast d (_extract_extra v)))
        else do
          let (b0, b1) ← _bounds_for_level levels lvl
          if b0 = b1 then do
            let v ← lookupLevel vs b0
            let d ← _extract_variant_fields v
            pure (some (roundedOut lvl d (_extract_extra v)))
          else do
            let v0 ← lookupLevel vs b0
            let v1 ← lookupLevel vs b1
            let d0 ← _extract_variant_fields v0
            let d1 ← _extract_variant_fields v1
            let t : ℚ := ((lvl : ℚ) - (b0 : ℚ)) / ((b1 : ℚ) - (b0 : ℚ))
            pure (some
              { level := lvl,
                hp_max := _round_stat (_lerp d0.hp_max d1.hp_max t),
                mp_max := _round_stat (_lerp d0.mp_max d1.mp_max t),
                STR := _round_stat (_lerp d0.STR d1.STR t),
                AGI := _round_stat (_lerp d0.AGI d1.AGI t),
                INT := _round_stat (_lerp d0.INT d1.INT t),
                DEX := _round_stat (_lerp d0.DEX d1.DEX t),
                VIT := _round_stat (_lerp d0.VIT d1.VIT t),
                base_attack := _lerp d0.base_attack d1.base_attack t,
                extra := if t < 1/2 then _extract_extra v0
                         else _extract_extra v1 })

/-- A stored variant that resolves without surprises: its seven core stats
are integer-valued (fixed by Python `round`), its `base_attack` coerces to
a float, and the all-zero-stats-with-abilities fallback does not fire. -/
def CleanVariant (v : MonsterVariant) : Prop :=
  pyRound v.hp_max = v.hp_max ∧ pyRound v.mp_max = v.mp_max ∧
  pyRound v.STR = v.STR ∧ pyRound v.AGI = v.AGI ∧ pyRound v.INT = v.INT ∧
  pyRound v.DEX = v.DEX ∧ pyRound v.VIT = v.VIT ∧
  (floatOrZero v.base_attack).isSome = true ∧
  (¬ coreStatsZero v ∨ getAbilities (_extract_extra v) = [])

instance (v : MonsterVariant) : Decidable (CleanVariant v) := by
  unfold CleanVariant; infer_instance

/-- The result `interpolated_variant` produces for a clean stored variant
at an exact or clamped level: the stored stats and extra verbatim. -/
def exactOut (k : ℤ) (v : MonsterVariant) : VariantOut :=
  { level := k, hp_max := v.hp_max, mp_max := v.mp_max,
    STR := v.STR, AGI := v.AGI, INT := v.INT, DEX := v.DEX, VIT := v.VIT,
    base_attack := (floatOrZero v.base_attack).getD 0,
    extra := _extract_extra v }

/-- The stats dict `_extract_variant_fields` computes for a variant. -/
def statsOf (v : MonsterVariant) : StatsMap :=
  ⟨v.hp_max, v.mp_max, v.STR, v.AGI, v.INT, v.DEX, v.VIT,
    (floatOrZero v.base_attack).getD 0⟩

-- ----------------------------
-- Concrete monsters used in examples
-- ----------------------------

/-- Lower demo variant (level 1, integral stats, extra label "lo"). -/
def variantLo : MonsterVariant :=
  { level := 1, hp_max := 10, mp_max := 0, STR := 2, AGI := 0, INT := 0,
    DEX := 0, VIT := 4, extra := some [("label", ExtraVal.str "lo")] }

/-- Upper demo variant (level 3, integral stats, extra label "hi"). -/
def variantHi : MonsterVariant :=
  { level := 3, hp_max := 20, mp_max := 0, STR := 4, AGI := 0, INT := 0,
    DEX := 0, VIT := 6, extra := some [("label", ExtraVal.str "hi")] }

/-- Demo monster with stored variants at levels 1 and 3. -/
def demoMonster : Monster :=
  { name := "Demo", variants := some [(1, variantLo), (3, variantHi)] }

/-- A stored variant with the fractional stat 12.5. -/
def variantHalf : MonsterVariant :=
  { level := 5, hp_max := 25/2, mp_max := 0, STR := 0, AGI := 0, INT := 0,
    DEX := 0, VIT := 0 }

/-- Monster holding only the fractional variant at level 5. -/
def monsterHalf : Monster :=
  { name := "Half", variants := some [(5, variantHalf)] }

/-- An all-zero-stats variant whose stats live in its ability strings. -/
def variantZero : MonsterVariant :=
  { level := 5, hp_max := 0, mp_max := 0, STR := 0, AGI := 0, INT := 0,
    DEX := 0, VIT := 0,
    extra := some [("abilities",
      ExtraVal.strList ["HP: 15/15", "STR: 4", "Attaque de base: 5"])] }

/-- Monster holding the all-zero-stats variant at level 5. -/
def monsterZero : Monster :=
  { name := "Zero", variants := some [(5, variantZero)] }

/-- An ordinary stored variant at level 9 (integral stats). -/
def variantPlain : MonsterVariant :=
  { level := 9, hp_max := 20, mp_max := 0, STR := 8, AGI := 0, INT := 0,
    DEX := 0, VIT := 4 }

/-- Monster pairing the all-zero-stats variant (level 5) with an ordinary
variant (level 9), to read at, below, and between the stored levels. -/
def monsterZeroPair : Monster :=
  { name := "ZeroPair", variants := some [(5, variantZero), (9, variantPlain)] }

-- ----------------------------
-- Concrete entities used in examples
-- ----------------------------

/-- The attacker of the spec's combat examples: STR 35, all other stats 0. -/
def entA : RuntimeEntity :=
  { name := "A", kind := "PJ", level := 1, hp_max := 100, mp_max := 10,
    STR := 35, AGI := 0, INT := 0, DEX := 0, VIT := 0, hp := 100, mp := 10 }

/-- The defender of the spec's combat examples: VIT 80, all other stats 0. -/
def entD : RuntimeEntity :=
  { name := "D", kind := "Mob", level := 1, hp_max := 100, mp_max := 0,
    STR := 0, AGI := 0, INT := 0, DEX := 0, VIT := 80, hp := 100, mp := 0 }

/-- A low-INT magic attacker used in the counter-damage example. -/
def entA2 : RuntimeEntity :=
  { name := "A2", kind := "PJ", level := 1, hp_max := 50, mp_max := 10,
    STR := 0, AGI := 0, INT := 2, DEX := 0, VIT := 0, hp := 50, mp := 10 }

/-- A sturdy VIT-100 defender used in the counter-damage example. -/
def entD2 : RuntimeEntity :=
  { name := "D2", kind := "Mob", level := 1, hp_max := 100, mp_max := 0,
    STR := 0, AGI := 0, INT := 0, DEX := 0, VIT := 100, hp := 100, mp := 0 }

/-- Modelled from the spec's words for C1 (refinement target, *not* from the
source): `damage = max(0, (roll_a - roll_b) + attack_stat -
(armor_pierce ? 0 : defense_term))` with `defense_term = VIT / vit_divisor`. -/
def specDamageC1 (attack_stat defense_term roll_a roll_b : ℚ)
    (armor_pierce : Bool) : ℚ :=
  max 0 ((roll_a - roll_b) + attack_stat -
    (if armor_pierce then 0 else defense_term))

-- ----------------------------
-- md_parser.py : text helpers
-- ----------------------------

/-- Python dict assignment `m[k] = v`: update in place when the key exists,
append otherwise (insertion order preserved). -/
def pyDictSet {α β : Type} [DecidableEq α] (m : List (α × β)) (k : α)
    (v : β) : List (α × β) :=
  if (m.find? (fun p => p.1 = k)).isSome then
    m.map (fun p => if p.1 = k then (k, v) else p)
  else m ++ [(k, v)]

/-- Python dict lookup. -/
def pyDictGet {α β : Type} [DecidableEq α] (m : List (α × β)) (k : α) :
    Option β :=
  (m.find? (fun p => p.1 = k)).map Prod.snd

def isSpaceTab (c : Char) : Bool := c = ' ' ∨ c = '\t'

/-- `_RE_WS.sub(" ", ·)` — collapse every run of spaces/tabs to one space. -/
def collapseWS : List Char → List Char
  | [] => []
  | c :: rest =>
    if isSpaceTab c then ' ' :: collapseWS (rest.dropWhile isSpaceTab)
    else c :: collapseWS rest
termination_by l => l.length
decreasing_by
  · exact Nat.lt_succ_of_le (List.dropWhile_sublist isSpaceTab).length_le
  · simp

/-- Python `str.strip()`. -/
def pyStrip (cs : List Char) : List Char :=
  (cs.dropWhile Char.isWhitespace).reverse.dropWhile Char.isWhitespace
    |>.reverse

/-- `md_parser._norm` — strip, then collapse inner whitespace runs. -/
def _norm (s : String) : String :=
  String.mk (collapseWS (pyStrip s.toList))

/-- `md_parser._strip_md` — remove `*`, `_` and backtick, then `_norm`. -/
def _strip_md (s : String) : String :=
  _norm (String.mk (s.toList.filter
    (fun c => ¬ (c = '*' ∨ c = '_' ∨ c = Char.ofNat 96))))

/-- First match of `[0-9]+(?:\.[0-9]+)?` in a character list, as a rational
(`float` of the matched text). -/
def findNumToken : List Char → Option ℚ
  | [] => Option.none
  | c :: rest =>
    if isDigitChar c then
      let ds := (c :: rest).takeWhile isDigitChar
      let after := (c :: rest).dropWhile isDigitChar
      match after with
      | '.' :: d2 :: _ =>
        if isDigitChar d2 then
          let frac := (after.drop 1).takeWhile isDigitChar
          some ((digitsToNat ds : ℚ) +
            (digitsToNat frac : ℚ) / (10 : ℚ) ^ frac.length)
        else some (digitsToNat ds : ℚ)
      | _ => some (digitsToNat ds : ℚ)
    else findNumToken rest

/-- `md_parser._as_float` — strip markers, commas become decimal points,
`?` or missing numeral yields no value. -/
def _as_float (s : String) : Option ℚ :=
  let t := (_strip_md s).toList.map (fun c => if c = ',' then '.' else c)
  if t.isEmpty ∨ t.contains '?' then Option.none
  else findNumToken t

/-- Fuelled version of the `while` loop in `md_parser._safe_key`; the fuel
(one more than the dict size) always suffices because at most
`existing.length` candidate names are taken. -/
def safeKeyAux {β : Type} (base : String)
    (existing : List (String × β)) : ℕ → ℕ → String
  | 0, i => base ++ " (" ++ toString i ++ ")"
  | fuel + 1, i =>
    let cand := base ++ " (" ++ toString i ++ ")"
    if (pyDictGet existing cand).isSome then
      safeKeyAux base existing fuel (i + 1)
    else cand

/-- `md_parser._safe_key` — return `name` when free, else the first free
`name (i)` for i = 2, 3, …. -/
def _safe_key {β : Type} (name : String) (existing : List (String × β)) :
    String :=
  if (pyDictGet existing name).isNone then name
  else safeKeyAux name existing (existing.length + 1) 2

/-- Anchored match of `KEY\s*:\s*(.+)` (the `Drop`/`Zone` patterns of the
parser's ability re-scan). -/
def matchKeyRest (key : String) (s : String) : Option String := do
  let r ← dropLit key.toList s.toList
  let r ← dropLit [':'] (skipWS r)
  match skipWS r with
  | [] => Option.none
  | rest => some (String.mk rest)

/-- `re.split(r"[,;/]", ·)`. -/
def splitDropSeps : List Char → List (List Char)
  | [] => [[]]
  | c :: rest =>
    match splitDropSeps rest with
    | [] => [[c]]
    | h :: t =>
      if c = ',' ∨ c = ';' ∨ c = '/' then [] :: h :: t else (c :: h) :: t

/-- `str.split(",")`. -/
def splitCommas : List Char → List (List Char)
  | [] => [[]]
  | c :: rest =>
    match splitCommas rest with
    | [] => [[c]]
    | h :: t =>
      if c = ',' then [] :: h :: t else (c :: h) :: t

/-- Everything after the first occurrence of a character
(`s.split(ch, 1)[1]` when `ch in s`). -/
def afterFirstChar (ch : Char) : List Char → List Char
  | [] => []
  | c :: rest => if c = ch then rest else afterFirstChar ch rest

-- ----------------------------
-- md_parser.py : monster parsing state machine
-- ----------------------------

/-- One classified input line of the bestiary scanner
(`parse_monsters_bestiaire` tests its regexes in priority order on each
raw line; each constructor is one line class with its raw captures,
`sectionBad` marking a monster-header line that `_RE_SECTION_BAD` also
matches). -/
inductive MdLine where
  | palier (n : ℕ)
  | monsterHeader (sectionBad : Bool) (name : String) (range : Option String)
  | level (n : ℕ)
  | phase (label : String)
  | abilitiesHeader
  | abilityItem (name desc : String)
  | dropLine (v : String)
  | zoneLine (v : String)
  | hpmpLine (isHP : Bool) (v : String)
  | statLine (k : CoreStat) (v : String)
  | baseAtkLine (v : String)
  | kvLine (k v : String)
  | otherLine
deriving DecidableEq, Repr

/-- The mutable locals of `parse_monsters_bestiaire`. -/
structure ParserState where
  monsters : List (String × Monster)
  current_palier : Option String
  cur_monster : Option Monster
  cur_key : Option String
  cur_level : Option ℤ
  cur_label : Option String
  cur_hp_max : Option ℚ
  cur_mp_max : Option ℚ
  cur_stats : List (String × ℚ)
  cur_base_attack : Option String
  cur_extra : List (String × String)
  cur_abilities : List String
  artificial_level : ℕ
deriving Repr

def initState : ParserState :=
  { monsters := [], current_palier := Option.none,
    cur_monster := Option.none, cur_key := Option.none,
    cur_level := Option.none, cur_label := Option.none,
    cur_hp_max := Option.none, cur_mp_max := Option.none,
    cur_stats := [], cur_base_attack := Option.none, cur_extra := [],
    cur_abilities := [], artificial_level := 0 }

/-- `_ensure_variant_level` — the current explicit level, or a fresh
synthetic level above 10000. -/
def ensureVariantLevel (s : ParserState) : ℤ × ParserState :=
  match s.cur_level with
  | some l => (l, s)
  | Option.none =>
    let a := s.artificial_level + 1
    let s' :=
      { s with
        artificial_level := a
        cur_level := some ((10000 + a : ℕ) : ℤ) }
    ((10000 + a : ℕ), s')

/-- One iteration of the parser's `extract_stats_from_abilities` loop:
returns the updated state and `true` when the ability line is kept. -/
def procAbility (s : ParserState) (ab : String) : ParserState × Bool :=
  match matchKeyNat "HP" ab, s.cur_hp_max with
  | some n, Option.none => ({ s with cur_hp_max := some (n : ℚ) }, false)
  | _, _ =>
  match matchKeyNat "MP" ab, s.cur_mp_max with
  | some n, Option.none => ({ s with cur_mp_max := some (n : ℚ) }, false)
  | _, _ =>
  match matchCoreStat ab with
  | some (k, n) =>
    ({ s with cur_stats := pyDictSet s.cur_stats (coreStatName k) (n : ℚ) },
      false)
  | Option.none =>
  match matchAtkDigits ab, s.cur_base_attack with
  | some ds, Option.none =>
    ({ s with cur_base_attack := some (String.mk ds) }, false)
  | _, _ =>
  match matchKeyRest "Drop" ab, s.cur_monster with
  | some g, some mon =>
    if mon.drops = Option.none ∨ mon.drops = some [] then
      let drops' := some ((splitCommas g.toList).map
        (fun cs => String.mk (pyStrip cs)))
      ({ s with cur_monster := some { mon with drops := drops' } }, false)
    else nextZone s ab
  | _, _ => nextZone s ab
where
  nextZone (s : ParserState) (ab : String) : ParserState × Bool :=
    match matchKeyRest "Zone" ab, s.cur_monster with
    | some g, some mon =>
      if mon.zone = Option.none ∨ mon.zone = some "" then
        let z' := some (String.mk (pyStrip g.toList))
        ({ s with cur_monster := some { mon with zone := z' } }, false)
      else (s, true)
    | _, _ => (s, true)

/-- The parser's `extract_stats_from_abilities`: scan each accumulated
ability line, pull out embedded stats, and drop consumed lines. -/
def extractStatsAbilitiesP (s : ParserState) : ParserState :=
  let s0 := { s with cur_abilities := [] }
  s.cur_abilities.foldl
    (fun acc ab =>
      let (acc', keep) := procAbility acc ab
      if keep then { acc' with cur_abilities := acc'.cur_abilities ++ [ab] }
      else acc')
    s0

/-- The `extra` dict assembled by `flush_variant`
(`{**label, **cur_extra, **abilities} or None`). -/
def mkExtra (label : Option String) (extra : List (String × String))
    (abilities : List String) : ExtraMap :=
  let d : List (String × ExtraVal) :=
    match label with
    | some l => [("label", ExtraVal.str l)]
    | Option.none => []
  let d := extra.foldl (fun acc p => pyDictSet acc p.1 (ExtraVal.str p.2)) d
  let d :=
    if abilities = [] then d
    else pyDictSet d "abilities" (ExtraVal.strList abilities)
  if d = [] then Option.none else some d

/-- `md_parser.flush_variant`. -/
def flush_variantP (s : ParserState) : ParserState :=
  match s.cur_monster with
  | Option.none => s
  | some _ =>
    let s := extractStatsAbilitiesP s
    if s.cur_level = Option.none ∧ s.cur_label = Option.none ∧
        s.cur_hp_max = Option.none ∧ s.cur_mp_max = Option.none ∧
        s.cur_stats = [] ∧ s.cur_base_attack = Option.none ∧
        s.cur_extra = [] ∧ s.cur_abilities = [] then
      s
    else
      let (lvl, s) := ensureVariantLevel s
      match s.cur_monster with
      | Option.none => s
      | some mon =>
        let v : MonsterVariant :=
          { level := lvl,
            hp_max := s.cur_hp_max.getD 0,
            mp_max := s.cur_mp_max.getD 0,
            STR := (pyDictGet s.cur_stats "STR").getD 0,
            AGI := (pyDictGet s.cur_stats "AGI").getD 0,
            INT := (pyDictGet s.cur_stats "INT").getD 0,
            DEX := (pyDictGet s.cur_stats "DEX").getD 0,
            VIT := (pyDictGet s.cur_stats "VIT").getD 0,
            base_attack :=
              match s.cur_base_attack with
              | some t => PyScalar.str t
              | Option.none => PyScalar.none,
            extra := mkExtra s.cur_label s.cur_extra s.cur_abilities }
        let vars := pyDictSet (mon.variants.getD []) lvl v
        { s with
          cur_monster := some { mon with variants := some vars }
          cur_level := Option.none
          cur_label := Option.none
          cur_hp_max := Option.none
          cur_mp_max := Option.none
          cur_stats := []
          cur_base_attack := Option.none
          cur_extra := []
          cur_abilities := [] }

/-- `md_parser.flush_monster`. -/
def flush_monsterP (s : ParserState) : ParserState :=
  match s.cur_monster with
  | Option.none => s
  | some _ =>
    let s := flush_variantP s
    match s.cur_monster with
    | Option.none => s
    | some mon =>
      let mon := { mon with variants := some (mon.variants.getD []) }
      let key :=
        match s.cur_key with
        | some k => if k = "" then mon.name else k
        | Option.none => mon.name
      { s with
        monsters := pyDictSet s.monsters key mon
        cur_monster := Option.none
        cur_key := Option.none
        artificial_level := 0 }

/-- The known-key filter of the generic `- **Key:** value` branch. -/
def kvKnownKeys : List String :=
  ["hp", "mp", "str", "agi", "int", "dex", "vit", "attaque de base",
   "drop", "zone", "compétences", "competences"]

/-- The body of the line loop of `parse_monsters_bestiaire`. -/
def parseLine (s : ParserState) (ln : MdLine) : ParserState :=
  match ln with
  | .palier n => { s with current_palier := some ("Palier " ++ toString n) }
  | .monsterHeader bad name range =>
    if bad then s
    else
      let s := flush_monsterP s
      let nm := _strip_md name
      let rng0 := _strip_md (range.getD "")
      let rng : Option String := if rng0 = "" then Option.none else some rng0
      let mon : Monster :=
        { name := nm, palier := s.current_palier, level_range := rng,
          variants := some [] }
      { s with
        cur_monster := some mon
        cur_key := some (_safe_key nm s.monsters) }
  | ln =>
    match s.cur_monster with
    | Option.none => s
    | some mon =>
      match ln with
      | .level n =>
        let s := flush_variantP s
        { s with cur_level := some (n : ℤ) }
      | .phase label =>
        let s := flush_variantP s
        { s with
          cur_label := some (_strip_md label)
          cur_level := Option.none }
      | .abilitiesHeader => s
      | .abilityItem nm ds =>
        let ab := (_strip_md nm) ++ ": " ++ (_strip_md ds)
        { s with cur_abilities := s.cur_abilities ++ [ab] }
      | .dropLine v =>
        let raw := _strip_md v
        let parts := ((splitDropSeps raw.toList).map
          (fun cs => String.mk (pyStrip cs))).filter (fun t => t ≠ "")
        if parts ≠ [] then
          { s with cur_monster := some { mon with drops := some parts } }
        else s
      | .zoneLine v =>
        let z := _strip_md v
        if z ≠ "" then
          { s with cur_monster := some { mon with zone := some z } }
        else s
      | .hpmpLine isHP v =>
        let vv := _strip_md v
        let vmax :=
          if vv.toList.contains '/' then
            _as_float (String.mk (afterFirstChar '/' vv.toList))
          else _as_float vv
        match vmax with
        | Option.none => s
        | some q =>
          if isHP then { s with cur_hp_max := some q }
          else { s with cur_mp_max := some q }
      | .statLine k v =>
        match _as_float v with
        | some q =>
          { s with cur_stats := pyDictSet s.cur_stats (coreStatName k) q }
        | Option.none => s
      | .baseAtkLine v => { s with cur_base_attack := some (_strip_md v) }
      | .kvLine k v =>
        let key := _strip_md k
        let val := _strip_md v
        if key.toLower ∈ kvKnownKeys then s
        else
          let s := (ensureVariantLevel s).2
          { s with cur_extra := pyDictSet s.cur_extra key val }
      | _ => s

/-- `md_parser.parse_monsters_bestiaire`, over classified lines. -/
def parse_monsters_bestiaire (lines : List MdLine) :
    List (String × Monster) :=
  (flush_monsterP (lines.foldl parseLine initState)).monsters

-- ----------------------------
-- models.py : Compendium (de)serialization
-- ----------------------------

/-- Python `str(n)` for a natural number: decimal digits. -/
def pyStrNat (n : ℕ) : String :=
  if n = 0 then "0"
  else String.mk (((Nat.digits 10 n).map
    (fun d => Char.ofNat (48 + d))).reverse)

/-- Python `str(k)` for an integer. -/
def pyStrInt (k : ℤ) : String :=
  if k < 0 then "-" ++ pyStrNat k.natAbs else pyStrNat k.toNat

/-- The dict `Compendium.to_dict` produces for one monster: `asdict(m)`
with the variants dict re-keyed by `str(level)`. -/
structure MonsterDict where
  name : String
  palier : Option String
  level_range : Option String
  rarity : Option String
  zone : Option String
  drops : Option (List String)
  abilities : Option (List String)
  variants : List (String × MonsterVariant)
deriving DecidableEq, Repr

/-- The dict `Compendium.to_dict` produces. -/
structure CompendiumDict where
  monsters : List (String × MonsterDict)
  skills : List (String × Skill)
deriving DecidableEq, Repr

/-- `models.Compendium.to_dict` — `asdict` on each record; variant level
keys become `str(k)`. -/
def Compendium.to_dict (c : Compendium) : CompendiumDict :=
  { monsters := c.monsters.map (fun p =>
      (p.1,
        { name := p.2.name, palier := p.2.palier,
          level_range := p.2.level_range, rarity := p.2.rarity,
          zone := p.2.zone, drops := p.2.drops,
          abilities := p.2.abilities,
          variants := (p.2.variants.getD []).map
            (fun q => (pyStrInt q.1, q.2)) })),
    skills := c.skills }

/-- `float(vd["base_attack"]) if vd.get("base_attack") is not None else
None` — fails (`ValueError`) on a non-numeric string. -/
def baFromDict : PyScalar → Option PyScalar
  | PyScalar.none => some PyScalar.none
  | PyScalar.num q => some (PyScalar.num q)
  | PyScalar.str s => (pyFloatOfString s).map PyScalar.num

/-- `models.Compendium.from_dict` — rebuild the records; level keys via
`int(lk)`, floats via `float(·)`.  `Option.none` models an exception
(unparsable level key or base_attack). -/
def Compendium.from_dict (d : CompendiumDict) : Option Compendium := do
  let monsters ← d.monsters.foldlM
    (fun (acc : List (String × Monster)) (p : String × MonsterDict) => do
      let variants ← p.2.variants.foldlM
        (fun (vacc : List (ℤ × MonsterVariant))
            (q : String × MonsterVariant) => do
          let ik ← pyIntOfString q.1
          let ba ← baFromDict q.2.base_attack
          pure (pyDictSet vacc ik { q.2 with base_attack := ba }))
        []
      let mon : Monster :=
        { name := p.2.name, palier := p.2.palier,
          level_range := p.2.level_range, rarity := p.2.rarity,
          zone := p.2.zone, drops := p.2.drops,
          abilities := p.2.abilities, variants := some variants }
      pure (pyDictSet acc p.1 mon))
    []
  let skills := d.skills.foldl
    (fun (acc : List (String × Skill)) p => pyDictSet acc p.1 p.2) []
  pure { monsters := monsters, skills := skills }

/-- The value `from_dict` recovers for a serialized `base_attack`, when
the conversion succeeds: strings become their float value. -/
def floatifyBA : PyScalar → PyScalar
  | PyScalar.none => PyScalar.none
  | PyScalar.num q => PyScalar.num q
  | PyScalar.str s => PyScalar.num ((pyFloatOfString s).getD 0)

/-- A `base_attack` value `from_dict` can convert without raising. -/
def baOk : PyScalar → Prop
  | PyScalar.str s => (pyFloatOfString s).isSome = true
  | _ => True

instance (v : PyScalar) : Decidable (baOk v) := by
  unfold baOk; cases v <;> infer_instance

/-- The compendium `from_dict ∘ to_dict` reconstructs: identical except
each variant's `base_attack` passes through the float conversion. -/
def floatifyCompendium (c : Compendium) : Compendium :=
  { monsters := c.monsters.map (fun p =>
      (p.1, { p.2 with variants := some ((p.2.variants.getD []).map
        (fun q => (q.1, { q.2 with
          base_attack := floatifyBA q.2.base_attack }))) })),
    skills := c.skills }

/-- The concrete compendium of the round-trip example: one monster whose
single variant carries the scanner-produced string `"5"` as base_attack. -/
def compendiumStr5 : Compendium :=
  { monsters := [("M",
      { name := "M", variants := some [(5,
          { level := 5, hp_max := 10, mp_max := 0, STR := 1, AGI := 0,
            INT := 0, DEX := 0, VIT := 2,
            base_attack := PyScalar.str "5" })] })],
    skills := [] }

-- ----------------------------
-- General lemmas
-- ----------------------------

/-- Python `round` fixes every rational that is already an integer. -/
theorem pyRound_fix_of_intCast (n : ℤ) : pyRound (n : ℚ) = (n : ℚ) := by
  have hf : ((n : ℚ)).floor = n := by
    rw [Rat.floor_def', ← Rat.floor_def, Int.floor_intCast]
  unfold pyRound
  rw [hf]
  simp

/-- Looking up a key present in a variants dict with distinct keys yields
its stored variant. -/
theorem lookupLevel_eq_of_mem {vs : List (ℤ × MonsterVariant)} {k : ℤ}
    {v : MonsterVariant} (hnd : (vs.map Prod.fst).Nodup)
    (hmem : (k, v) ∈ vs) : lookupLevel vs k = some v := by
  induction vs with
  | nil => simp at hmem
  | cons p rest ih =>
    simp only [List.map_cons, List.nodup_cons] at hnd
    rcases List.mem_cons.mp hmem with h | h
    · subst h
      rw [lookupLevel, List.find?_cons_of_pos _ (by simp)]
      rfl
    · have hk : ¬ (p.1 = k) := by
        intro he
        exact hnd.1 (he ▸ (List.mem_map.mpr ⟨(k, v), h, rfl⟩))
      rw [lookupLevel, List.find?_cons_of_neg _ (by simp [hk])]
      simpa [lookupLevel] using ih hnd.2 h

theorem int_max?_eq_some {l : List ℤ} {a : ℤ} (h1 : a ∈ l)
    (h2 : ∀ b ∈ l, b ≤ a) : l.max? = some a := by
  haveI : Std.Antisymm ((· : ℤ) ≤ ·) := ⟨fun h h' => le_antisymm h h'⟩
  exact (List.max?_eq_some_iff (fun x => le_refl x)
    (fun x y => max_choice x y) (fun x y z => max_le_iff)).mpr ⟨h1, h2⟩

theorem int_min?_eq_some {l : List ℤ} {a : ℤ} (h1 : a ∈ l)
    (h2 : ∀ b ∈ l, a ≤ b) : l.min? = some a := by
  haveI : Std.Antisymm ((· : ℤ) ≤ ·) := ⟨fun h h' => le_antisymm h h'⟩
  exact (List.min?_eq_some_iff (fun x => le_refl x)
    (fun x y => min_choice x y) (fun x y z => le_min_iff)).mpr ⟨h1, h2⟩

theorem mem_sortedLevels {vs : List (ℤ × MonsterVariant)} {x : ℤ} :
    x ∈ sortedLevels vs ↔ x ∈ vs.map Prod.fst := by
  unfold sortedLevels
  rw [List.mem_insertionSort, List.mem_dedup]

theorem sorted_sortedLevels (vs : List (ℤ × MonsterVariant)) :
    (sortedLevels vs).Sorted (· ≤ ·) :=
  List.sorted_insertionSort _ _

theorem key_mem_of_pair {vs : List (ℤ × MonsterVariant)} {k : ℤ}
    {v : MonsterVariant} (h : (k, v) ∈ vs) : k ∈ vs.map Prod.fst :=
  List.mem_map.mpr ⟨(k, v), h, rfl⟩

theorem exists_pair_of_key_mem {vs : List (ℤ × MonsterVariant)} {k : ℤ}
    (h : k ∈ vs.map Prod.fst) : ∃ v, (k, v) ∈ vs := by
  obtain ⟨p, hp, hfst⟩ := List.mem_map.mp h
  exact ⟨p.2, by rwa [← hfst]⟩

/-- The head of a sorted list is a lower bound for its members. -/
theorem sorted_head_le {l0 : ℤ} {rest : List ℤ}
    (h : (l0 :: rest).Sorted (· ≤ ·)) :
    ∀ x ∈ l0 :: rest, l0 ≤ x := by
  intro x hx
  rcases List.mem_cons.mp hx with rfl | hx2
  · exact le_refl x
  · exact (List.sorted_cons.mp h).1 x hx2

/-- The last element of a sorted list is an upper bound for its members. -/
theorem sorted_le_getLast {l : List ℤ} (h : l.Sorted (· ≤ ·)) {x b : ℤ}
    (hx : x ∈ l) (hb : l.getLast? = some b) : x ≤ b := by
  induction l with
  | nil => simp at hx
  | cons a t ih =>
    cases t with
    | nil =>
      simp only [List.mem_singleton] at hx
      simp only [List.getLast?_singleton, Option.some.injEq] at hb
      subst hx
      subst hb
      exact le_refl x
    | cons c t2 =>
      have hb' : (c :: t2).getLast? = some b := by
        rwa [List.getLast?_cons_cons] at hb
      have hs := List.sorted_cons.mp h
      rcases List.mem_cons.mp hx with rfl | hx2
      · exact hs.1 b (List.mem_of_mem_getLast? (Option.mem_def.mpr hb'))
      · exact ih hs.2 hx2 hb'

/-- For a clean variant the fallback does not fire and the extracted stats
are the stored fields. -/
theorem extract_clean {v : MonsterVariant} (h : CleanVariant v) :
    _extract_variant_fields v = some (statsOf v) := by
  obtain ⟨_, _, _, _, _, _, _, hba, hnf⟩ := h
  have hcond : ¬ (coreStatsZero v ∧
      getAbilities (_extract_extra v) ≠ []) := by
    rintro ⟨hz, hne⟩
    rcases hnf with hnz | habs
    · exact hnz hz
    · exact hne habs
  cases hq : floatOrZero v.base_attack with
  | none => rw [hq] at hba; simp at hba
  | some ba =>
    unfold _extract_variant_fields statsOf
    simp [hq, hcond]

/-- Rounding the extracted stats of a clean variant reproduces it. -/
theorem roundedOut_statsOf {v : MonsterVariant} (h : CleanVariant v)
    (k : ℤ) : roundedOut k (statsOf v) (_extract_extra v) = exactOut k v := by
  obtain ⟨h1, h2, h3, h4, h5, h6, h7, _, _⟩ := h
  unfold roundedOut statsOf exactOut _round_stat
  simp [h1, h2, h3, h4, h5, h6, h7]

/-- Properties of a rendered decimal digit character. -/
theorem digitChar_props (d : ℕ) (h : d < 10) :
    isDigitChar (Char.ofNat (48 + d)) = true ∧
    (Char.ofNat (48 + d)).toNat - 48 = d ∧
    (Char.ofNat (48 + d)).isWhitespace = false ∧
    ¬ (Char.ofNat (48 + d) = '-') ∧ ¬ (Char.ofNat (48 + d) = '+') := by
  interval_cases d <;>
    exact ⟨by decide, by decide, by decide, by decide, by decide⟩

theorem digitsToNat_append_one (xs : List Char) (c : Char) :
    digitsToNat (xs ++ [c]) = digitsToNat xs * 10 + (c.toNat - 48) := by
  unfold digitsToNat
  rw [List.foldl_append]
  rfl

/-- Reading back the rendered digits of a little-endian digit list. -/
theorem digitsToNat_renderDigits (ds : List ℕ) (h : ∀ d ∈ ds, d < 10) :
    digitsToNat ((ds.map (fun d => Char.ofNat (48 + d))).reverse) =
      Nat.ofDigits 10 ds := by
  induction ds with
  | nil => rfl
  | cons d ds ih =>
    rw [List.map_cons, List.reverse_cons, digitsToNat_append_one,
      ih (fun x hx => h x (List.mem_cons_of_mem _ hx)),
      Nat.ofDigits_cons,
      (digitChar_props d (h d (List.mem_cons_self _ _))).2.1]
    ring

/-- Every rendered digit character is a digit, not whitespace, not a
sign. -/
theorem renderDigits_all (ds : List ℕ) (h : ∀ d ∈ ds, d < 10) :
    ∀ c ∈ (ds.map (fun d => Char.ofNat (48 + d))).reverse,
      isDigitChar c = true ∧ c.isWhitespace = false ∧
      ¬ (c = '-') ∧ ¬ (c = '+') := by
  intro c hc
  rw [List.mem_reverse, List.mem_map] at hc
  obtain ⟨d, hd, rfl⟩ := hc
  have hp := digitChar_props d (h d hd)
  exact ⟨hp.1, hp.2.2.1, hp.2.2.2.1, hp.2.2.2.2⟩

theorem dropWhile_ws_id (cs : List Char)
    (h : ∀ c ∈ cs, c.isWhitespace = false) :
    cs.dropWhile Char.isWhitespace = cs := by
  cases cs with
  | nil => rfl
  | cons c t =>
    rw [List.dropWhile_cons, h c (List.mem_cons_self _ _)]
    simp

/-- `int()` of a pure digit string. -/
theorem pyInt_of_digit_chars (cs : List Char) (hne : cs ≠ [])
    (h : ∀ c ∈ cs, isDigitChar c = true ∧ c.isWhitespace = false ∧
      ¬ (c = '-') ∧ ¬ (c = '+')) :
    pyIntOfString (String.mk cs) = some (digitsToNat cs : ℤ) := by
  unfold pyIntOfString
  have htl : (String.mk cs).toList = cs := rfl
  rw [htl, dropWhile_ws_id cs (fun c hc => (h c hc).2.1),
    dropWhile_ws_id cs.reverse
      (fun c hc => (h c (List.mem_reverse.mp hc)).2.1),
    List.reverse_reverse]
  cases cs with
  | nil => exact absurd rfl hne
  | cons c t =>
    have hc := h c (List.mem_cons_self _ _)
    have hall : (c :: t).all isDigitChar = true := by
      rw [List.all_eq_true]
      exact fun x hx => (h x hx).1
    simp [hc.2.2.1, hc.2.2.2, hall]

/-- `int()` of a sign-prefixed digit string. -/
theorem pyInt_of_neg_digit_chars (cs : List Char) (hne : cs ≠ [])
    (h : ∀ c ∈ cs, isDigitChar c = true ∧ c.isWhitespace = false ∧
      ¬ (c = '-') ∧ ¬ (c = '+')) :
    pyIntOfString (String.mk ('-' :: cs)) =
      some (-(digitsToNat cs : ℤ)) := by
  unfold pyIntOfString
  have htl : (String.mk ('-' :: cs)).toList = '-' :: cs := rfl
  have hall : ∀ c ∈ ('-' :: cs), c.isWhitespace = false := by
    intro c hc
    rcases List.mem_cons.mp hc with rfl | hc2
    · decide
    · exact (h c hc2).2.1
  rw [htl, dropWhile_ws_id _ hall,
    dropWhile_ws_id ('-' :: cs).reverse
      (fun c hc => hall c (List.mem_reverse.mp hc)),
    List.reverse_reverse]
  have hall2 : cs.all isDigitChar = true := by
    rw [List.all_eq_true]
    exact fun x hx => (h x hx).1
  have hnee : cs.isEmpty = false := by
    cases cs
    · exact absurd rfl hne
    · rfl
  simp [hall2, hnee]

/-- `int(str(n))` round-trips every natural number. -/
theorem pyInt_pyStrNat (n : ℕ) : pyIntOfString (pyStrNat n) = some (n : ℤ) := by
  unfold pyStrNat
  by_cases h0 : n = 0
  · subst h0
    rw [if_pos rfl]
    with_unfolding_all decide
  · rw [if_neg h0]
    have hlt : ∀ d ∈ Nat.digits 10 n, d < 10 :=
      fun d hd => Nat.digits_lt_base (by norm_num) hd
    have hne : ((Nat.digits 10 n).map
        (fun d => Char.ofNat (48 + d))).reverse ≠ [] := by
      simp only [ne_eq, List.reverse_eq_nil_iff, List.map_eq_nil_iff]
      exact Nat.digits_ne_nil_iff_ne_zero.mpr h0
    rw [pyInt_of_digit_chars _ hne (renderDigits_all _ hlt),
      digitsToNat_renderDigits _ hlt, Nat.ofDigits_digits]

/-- `int(str(k))` round-trips every integer. -/
theorem pyInt_pyStrInt (k : ℤ) : pyIntOfString (pyStrInt k) = some k := by
  unfold pyStrInt
  by_cases hk : k < 0
  · rw [if_pos hk]
    have h0 : k.natAbs ≠ 0 := by
      intro h
      rw [Int.natAbs_eq_zero] at h
      exact absurd (h ▸ hk) (lt_irrefl 0)
    have hlt : ∀ d ∈ Nat.digits 10 k.natAbs, d < 10 :=
      fun d hd => Nat.digits_lt_base (by norm_num) hd
    have hne : ((Nat.digits 10 k.natAbs).map
        (fun d => Char.ofNat (48 + d))).reverse ≠ [] := by
      simp only [ne_eq, List.reverse_eq_nil_iff, List.map_eq_nil_iff]
      exact Nat.digits_ne_nil_iff_ne_zero.mpr h0
    have hmk : ("-" : String) ++ pyStrNat k.natAbs =
        String.mk ('-' :: ((Nat.digits 10 k.natAbs).map
          (fun d => Char.ofNat (48 + d))).reverse) := by
      rw [pyStrNat, if_neg h0]
      rfl
    rw [hmk, pyInt_of_neg_digit_chars _ hne (renderDigits_all _ hlt),
      digitsToNat_renderDigits _ hlt, Nat.ofDigits_digits]
    congr 1
    omega
  · rw [if_neg hk, pyInt_pyStrNat]
    congr 1
    exact Int.toNat_of_nonneg (not_lt.mp hk)

/-- Updating a fresh key appends it. -/
theorem pyDictSet_append {α β : Type} [DecidableEq α]
    {m : List (α × β)} {k : α} {v : β} (h : ∀ p ∈ m, ¬ (p.1 = k)) :
    pyDictSet m k v = m ++ [(k, v)] := by
  have hf : m.find? (fun p => p.1 = k) = none :=
    List.find?_eq_none.mpr (fun x hx => by simpa using h x hx)
  simp [pyDictSet, hf]

/-- Folding dict inserts of pairwise-fresh keys concatenates them. -/
theorem foldl_pyDictSet_fresh {α β : Type} [DecidableEq α]
    (l : List (α × β)) :
    ∀ acc : List (α × β), (l.map Prod.fst).Nodup →
    (∀ a ∈ acc, ∀ b ∈ l, ¬ (a.1 = b.1)) →
    l.foldl (fun m p => pyDictSet m p.1 p.2) acc = acc ++ l := by
  induction l with
  | nil => intro acc _ _; simp
  | cons p t ih =>
    intro acc hnd hdisj
    simp only [List.map_cons, List.nodup_cons] at hnd
    rw [List.foldl_cons,
      pyDictSet_append (fun a ha => hdisj a ha p (List.mem_cons_self _ _)),
      ih (acc ++ [p]) hnd.2 ?_]
    · simp
    · intro a ha b hb
      rcases List.mem_append.mp ha with ha2 | ha2
      · exact hdisj a ha2 b (List.mem_cons_of_mem _ hb)
      · have : a = p := by simpa using ha2
        subst this
        intro he
        exact hnd.1 (he ▸ List.mem_map.mpr ⟨b, hb, rfl⟩)

/-- `baFromDict` succeeds exactly with the floatified value. -/
theorem baFromDict_eq_floatify {b : PyScalar} (h : baOk b) :
    baFromDict b = some (floatifyBA b) := by
  cases b with
  | none => rfl
  | num q => rfl
  | str s =>
    unfold baOk at h
    obtain ⟨q, hq⟩ := Option.isSome_iff_exists.mp h
    simp [baFromDict, floatifyBA, hq]

/-- The variants-dict rebuild of `from_dict` recovers the original integer
keys in order, floatifying each `base_attack`. -/
theorem variants_foldlM_roundtrip (vs : List (ℤ × MonsterVariant)) :
    ∀ acc : List (ℤ × MonsterVariant),
    (vs.map Prod.fst).Nodup →
    (∀ a ∈ acc, ∀ b ∈ vs, ¬ (a.1 = b.1)) →
    (∀ q ∈ vs, baOk q.2.base_attack) →
    ((vs.map (fun q => (pyStrInt q.1, q.2))).foldlM
      (fun (vacc : List (ℤ × MonsterVariant))
          (q : String × MonsterVariant) => do
        let ik ← pyIntOfString q.1
        let ba ← baFromDict q.2.base_attack
        pure (pyDictSet vacc ik { q.2 with base_attack := ba }))
      acc)
    = some (acc ++ vs.map (fun q =>
        (q.1, { q.2 with base_attack := floatifyBA q.2.base_attack }))) := by
  induction vs with
  | nil => intro acc _ _ _; simp
  | cons p t ih =>
    intro acc hnd hdisj hba
    simp only [List.map_cons, List.nodup_cons] at hnd
    have hbap : baFromDict p.2.base_attack =
        some (floatifyBA p.2.base_attack) :=
      baFromDict_eq_floatify (hba p (List.mem_cons_self _ _))
    simp only [Option.bind_eq_bind, Option.pure_def] at ih
    rw [List.map_cons, List.foldlM_cons]
    simp only [pyInt_pyStrInt, hbap, Option.bind_eq_bind, Option.some_bind,
      Option.pure_def]
    try dsimp only
    rw [pyDictSet_append
      (fun a ha => hdisj a ha p (List.mem_cons_self _ _))]
    rw [ih _ hnd.2 ?_
      (fun q hq => hba q (List.mem_cons_of_mem _ hq))]
    · simp
    · intro a ha b hb
      rcases List.mem_append.mp ha with ha2 | ha2
      · exact hdisj a ha2 b (List.mem_cons_of_mem _ hb)
      · have ha3 : a = (p.1,
            { p.2 with base_attack := floatifyBA p.2.base_attack }) := by
          simpa using ha2
        subst ha3
        intro he
        exact hnd.1 (he ▸ List.mem_map.mpr ⟨b, hb, rfl⟩)

/-- The monsters-dict rebuild of `from_dict` recovers the original records
in order. -/
theorem monsters_foldlM_roundtrip (ms : List (String × Monster)) :
    ∀ acc : List (String × Monster),
    (ms.map Prod.fst).Nodup →
    (∀ a ∈ acc, ∀ b ∈ ms, ¬ (a.1 = b.1)) →
    (∀ p ∈ ms, ∃ vs, p.2.variants = some vs ∧ (vs.map Prod.fst).Nodup ∧
      ∀ q ∈ vs, baOk q.2.base_attack) →
    ((ms.map (fun p =>
        (p.1,
          ({ name := p.2.name, palier := p.2.palier,
             level_range := p.2.level_range, rarity := p.2.rarity,
             zone := p.2.zone, drops := p.2.drops,
             abilities := p.2.abilities,
             variants := (p.2.variants.getD []).map
               (fun q => (pyStrInt q.1, q.2)) } : MonsterDict)))).foldlM
      (fun (acc : List (String × Monster)) (p : String × MonsterDict) => do
        let variants ← p.2.variants.foldlM
          (fun (vacc : List (ℤ × MonsterVariant))
              (q : String × MonsterVariant) => do
            let ik ← pyIntOfString q.1
            let ba ← baFromDict q.2.base_attack
            pure (pyDictSet vacc ik { q.2 with base_attack := ba }))
          []
        let mon : Monster :=
          { name := p.2.name, palier := p.2.palier,
            level_range := p.2.level_range, rarity := p.2.rarity,
            zone := p.2.zone, drops := p.2.drops,
            abilities := p.2.abilities, variants := some variants }
        pure (pyDictSet acc p.1 mon))
      acc)
    = some (acc ++ ms.map (fun p =>
        (p.1, { p.2 with variants := some ((p.2.variants.getD []).map
          (fun q => (q.1, { q.2 with
            base_attack := floatifyBA q.2.base_attack }))) }))) := by
  induction ms with
  | nil => intro acc _ _ _; simp
  | cons p t ih =>
    intro acc hnd hdisj hv
    simp only [List.map_cons, List.nodup_cons] at hnd
    obtain ⟨vs, hvs, hvnd, hvba⟩ := hv p (List.mem_cons_self _ _)
    simp only [Option.bind_eq_bind, Option.pure_def] at ih
    rw [List.map_cons, List.foldlM_cons]
    have hinner := variants_foldlM_roundtrip vs [] hvnd (by simp) hvba
    simp only [Option.bind_eq_bind, Option.pure_def] at hinner
    rw [hvs]
    simp only [Option.getD_some]
    simp only [hinner, Option.bind_eq_bind, Option.some_bind,
      Option.pure_def]
    try dsimp only
    rw [pyDictSet_append
      (fun a ha => hdisj a ha p (List.mem_cons_self _ _))]
    rw [ih _ hnd.2 ?_ (fun q hq => hv q (List.mem_cons_of_mem _ hq))]
    · simp [hvs]
    · intro a ha b hb
      rcases List.mem_append.mp ha with ha2 | ha2
      · exact hdisj a ha2 b (List.mem_cons_of_mem _ hb)
      · have ha3 : a.1 = p.1 := by
          have h' := List.mem_singleton.mp ha2
          rw [h']
        rw [ha3]
        intro he
        exact hnd.1 (he ▸ List.mem_map.mpr ⟨b, hb, rfl⟩)

/-- No string equals itself with `" (2)"` appended. -/
theorem ne_append_two (s : String) : ¬ (s = s ++ " (2)") := by
  intro h
  have hl := congrArg String.length h
  rw [String.length_append] at hl
  have h4 : (" (2)" : String).length = 4 := rfl
  omega

/-- No string equals itself with a `" (i)"` suffix appended. -/
theorem safeKey_cand_ne (s x : String) :
    ¬ (s = s ++ " (" ++ x ++ ")") := by
  intro h
  have hl := congrArg String.length h
  rw [String.length_append, String.length_append,
    String.length_append] at hl
  have l1 : (" (" : String).length = 2 := rfl
  have l2 : ((")") : String).length = 1 := rfl
  omega

/-- A suffixed key is never the empty string. -/
theorem append_two_ne_empty (s : String) : ¬ (s ++ " (2)" = "") := by
  intro h
  have hl := congrArg String.length h
  rw [String.length_append] at hl
  have h4 : (" (2)" : String).length = 4 := rfl
  have h0 : ("" : String).length = 0 := rfl
  omega

/-- Resolving at or below the smallest stored level clamps to the smallest
stored variant. -/
theorem interp_clamp_low {m : Monster} {vs : List (ℤ × MonsterVariant)}
    {kmin lvl : ℤ} {vmin : MonsterVariant} {d : StatsMap}
    (hv : m.variants = some vs)
    (hnd : (vs.map Prod.fst).Nodup)
    (hmem : (kmin, vmin) ∈ vs)
    (hmin : ∀ p ∈ vs, kmin ≤ p.1)
    (hlvl : lvl ≤ kmin)
    (hd : _extract_variant_fields vmin = some d) :
    interpolated_variant m lvl =
      some (some (roundedOut kmin d (_extract_extra vmin))) := by
  have hvs : vs ≠ [] := by rintro rfl; simp at hmem
  have hsorted := sorted_sortedLevels vs
  have hkmem : kmin ∈ sortedLevels vs :=
    mem_sortedLevels.mpr (key_mem_of_pair hmem)
  unfold interpolated_variant
  rw [hv]
  simp only [Option.getD_some]
  rw [if_neg hvs]
  cases hlev : sortedLevels vs with
  | nil => rw [hlev] at hkmem; simp at hkmem
  | cons l0 rest =>
    have hl0key : l0 ∈ vs.map Prod.fst :=
      mem_sortedLevels.mp (hlev ▸ List.mem_cons_self l0 rest)
    obtain ⟨w, hw⟩ := exists_pair_of_key_mem hl0key
    have h1 : kmin ≤ l0 := hmin _ hw
    have h2 : l0 ≤ kmin :=
      sorted_head_le (hlev ▸ hsorted) kmin (hlev ▸ hkmem)
    have heq : l0 = kmin := le_antisymm h2 h1
    simp only [hlev]
    subst heq
    rw [if_pos hlvl, lookupLevel_eq_of_mem hnd hmem]
    simp [hd]

/-- Resolving at or above the largest stored level clamps to the largest
stored variant. -/
theorem interp_clamp_high {m : Monster} {vs : List (ℤ × MonsterVariant)}
    {kmax lvl : ℤ} {vmax : MonsterVariant} {d : StatsMap}
    (hv : m.variants = some vs)
    (hnd : (vs.map Prod.fst).Nodup)
    (hmem : (kmax, vmax) ∈ vs)
    (hmax : ∀ p ∈ vs, p.1 ≤ kmax)
    (hlvl : kmax ≤ lvl)
    (hd : _extract_variant_fields vmax = some d) :
    interpolated_variant m lvl =
      some (some (roundedOut kmax d (_extract_extra vmax))) := by
  have hvs : vs ≠ [] := by rintro rfl; simp at hmem
  have hsorted := sorted_sortedLevels vs
  have hkmem : kmax ∈ sortedLevels vs :=
    mem_sortedLevels.mpr (key_mem_of_pair hmem)
  unfold interpolated_variant
  rw [hv]
  simp only [Option.getD_some]
  rw [if_neg hvs]
  cases hlev : sortedLevels vs with
  | nil => rw [hlev] at hkmem; simp at hkmem
  | cons l0 rest =>
    have hl0key : l0 ∈ vs.map Prod.fst :=
      mem_sortedLevels.mp (hlev ▸ List.mem_cons_self l0 rest)
    obtain ⟨w, hw⟩ := exists_pair_of_key_mem hl0key
    simp only [hlev]
    by_cases hle : lvl ≤ l0
    · -- the low clamp fires; it can only do so when all keys coincide
      have h1 : l0 ≤ kmax := hmax _ hw
      have h2 : kmax ≤ l0 := le_trans hlvl hle
      have heq : l0 = kmax := le_antisymm h1 h2
      subst heq
      rw [if_pos hle, lookupLevel_eq_of_mem hnd hmem]
      simp [hd]
    · rw [if_neg hle]
      -- identify the last level with kmax
      obtain ⟨ys, hys⟩ : ∃ ys, l0 :: rest = ys ++ [(l0 :: rest).getLast (by simp)] :=
        ⟨(l0 :: rest).dropLast, (List.dropLast_append_getLast (by simp)).symm⟩
      have hblast : (l0 :: rest).getLast? = some ((l0 :: rest).getLast (by simp)) :=
        List.getLast?_eq_getLast _ _
      set b := (l0 :: rest).getLast (by simp) with hbdef
      have hbmem : b ∈ l0 :: rest := List.getLast_mem _
      have hbkey : b ∈ vs.map Prod.fst := mem_sortedLevels.mp (hlev ▸ hbmem)
      obtain ⟨wb, hwb⟩ := exists_pair_of_key_mem hbkey
      have hb1 : b ≤ kmax := hmax _ hwb
      have hb2 : kmax ≤ b :=
        sorted_le_getLast (hlev ▸ hsorted) (hlev ▸ hkmem) hblast
      have heqb : b = kmax := le_antisymm hb1 hb2
      rw [hblast]
      dsimp only [Option.getD_some]
      rw [heqb]
      rw [if_pos hlvl, lookupLevel_eq_of_mem hnd hmem]
      simp [hd]

/-- Resolving at an exact stored level returns that variant's extracted
stats, rounded, with the stored extra. -/
theorem interp_at_exact_key {m : Monster} {vs : List (ℤ × MonsterVariant)}
    {k : ℤ} {v : MonsterVariant} {d : StatsMap}
    (hv : m.variants = some vs)
    (hnd : (vs.map Prod.fst).Nodup)
    (hmem : (k, v) ∈ vs)
    (hd : _extract_variant_fields v = some d) :
    interpolated_variant m k =
      some (some (roundedOut k d (_extract_extra v))) := by
  by_cases hmin : ∀ p ∈ vs, k ≤ p.1
  · exact interp_clamp_low hv hnd hmem hmin (le_refl k) hd
  by_cases hmax : ∀ p ∈ vs, p.1 ≤ k
  · exact interp_clamp_high hv hnd hmem hmax (le_refl k) hd
  -- k is an interior key: both clamp tests fail and `_bounds_for_level`
  -- returns (k, k)
  push_neg at hmin hmax
  obtain ⟨plo, hplo, hplo2⟩ := hmin
  obtain ⟨phi, hphi, hphi2⟩ := hmax
  have hvs : vs ≠ [] := by rintro rfl; simp at hmem
  have hsorted := sorted_sortedLevels vs
  have hkmem : k ∈ sortedLevels vs :=
    mem_sortedLevels.mpr (key_mem_of_pair hmem)
  unfold interpolated_variant
  rw [hv]
  simp only [Option.getD_some]
  rw [if_neg hvs]
  cases hlev : sortedLevels vs with
  | nil => rw [hlev] at hkmem; simp at hkmem
  | cons l0 rest =>
    have hlo_mem : plo.1 ∈ sortedLevels vs :=
      mem_sortedLevels.mpr (key_mem_of_pair (show (plo.1, plo.2) ∈ vs by simpa using hplo))
    have hl0_le : l0 ≤ plo.1 :=
      sorted_head_le (hlev ▸ hsorted) plo.1 (hlev ▸ hlo_mem)
    have hl0lt : l0 < k := lt_of_le_of_lt hl0_le hplo2
    simp only [hlev]
    rw [if_neg (not_le.mpr hl0lt)]
    have hblast : (l0 :: rest).getLast? = some ((l0 :: rest).getLast (by simp)) :=
      List.getLast?_eq_getLast _ _
    set b := (l0 :: rest).getLast (by simp) with hbdef
    have hhi_mem : phi.1 ∈ sortedLevels vs :=
      mem_sortedLevels.mpr (key_mem_of_pair (show (phi.1, phi.2) ∈ vs by simpa using hphi))
    have hhi_le : phi.1 ≤ b :=
      sorted_le_getLast (hlev ▸ hsorted) (hlev ▸ hhi_mem) hblast
    have hblt : k < b := lt_of_lt_of_le hphi2 hhi_le
    rw [hblast]
    simp only [Option.getD_some]
    rw [if_neg (not_le.mpr hblt)]
    have hbounds : _bounds_for_level (l0 :: rest) k = some (k, k) := by
      unfold _bounds_for_level
      rw [if_pos (hlev ▸ hkmem)]
    rw [hbounds]
    simp [lookupLevel_eq_of_mem hnd hmem, hd]

/-- Resolving strictly between the two tightest bracketing stored levels
takes the interpolation branch: every stat is lerped (and rounded, except
`base_attack`) between the two bounds' extracted stats, and the extra of
the closer bound is taken (ties upward). -/
theorem interp_between {m : Monster} {vs : List (ℤ × MonsterVariant)}
    {b0 b1 lvl : ℤ} {v0 v1 : MonsterVariant} {d0 d1 : StatsMap}
    (hv : m.variants = some vs)
    (hnd : (vs.map Prod.fst).Nodup)
    (h0 : (b0, v0) ∈ vs) (h1 : (b1, v1) ∈ vs)
    (hb0 : b0 < lvl) (hb1 : lvl < b1)
    (ht0 : ∀ p ∈ vs, p.1 ≤ b0 ∨ lvl < p.1)
    (ht1 : ∀ p ∈ vs, p.1 < lvl ∨ b1 ≤ p.1)
    (hd0 : _extract_variant_fields v0 = some d0)
    (hd1 : _extract_variant_fields v1 = some d1) :
    interpolated_variant m lvl = some (some
      (lerpOut lvl b0 b1 d0 d1 (_extract_extra v0) (_extract_extra v1))) := by
  have hvs : vs ≠ [] := by rintro rfl; simp at h0
  have hsorted := sorted_sortedLevels vs
  have hmem0 : b0 ∈ sortedLevels vs := mem_sortedLevels.mpr (key_mem_of_pair h0)
  have hmem1 : b1 ∈ sortedLevels vs := mem_sortedLevels.mpr (key_mem_of_pair h1)
  have hnotin : lvl ∉ sortedLevels vs := by
    intro hin
    obtain ⟨w, hw⟩ := exists_pair_of_key_mem (mem_sortedLevels.mp hin)
    rcases ht0 _ hw with h | h
    · exact absurd (lt_of_lt_of_le hb0 h) (lt_irrefl b0)
    · exact absurd h (lt_irrefl lvl)
  unfold interpolated_variant
  rw [hv]
  simp only [Option.getD_some]
  rw [if_neg hvs]
  cases hlev : sortedLevels vs with
  | nil => rw [hlev] at hmem0; simp at hmem0
  | cons l0 rest =>
    have hl0_le : l0 ≤ b0 :=
      sorted_head_le (hlev ▸ hsorted) b0 (hlev ▸ hmem0)
    have hl0lt : l0 < lvl := lt_of_le_of_lt hl0_le hb0
    simp only [hlev]
    rw [if_neg (not_le.mpr hl0lt)]
    have hblast : (l0 :: rest).getLast? = some ((l0 :: rest).getLast (by simp)) :=
      List.getLast?_eq_getLast _ _
    set bl := (l0 :: rest).getLast (by simp) with hbldef
    have hbl_ge : b1 ≤ bl :=
      sorted_le_getLast (hlev ▸ hsorted) (hlev ▸ hmem1) hblast
    have hbllt : lvl < bl := lt_of_lt_of_le hb1 hbl_ge
    rw [hblast]
    simp only [Option.getD_some]
    rw [if_neg (not_le.mpr hbllt)]
    have hfilter_lo :
        ((l0 :: rest).filter (fun L => decide (L < lvl))).max? = some b0 := by
      apply int_max?_eq_some
      · rw [List.mem_filter]
        exact ⟨hlev ▸ hmem0, by simpa using hb0⟩
      · intro x hx
        rw [List.mem_filter] at hx
        obtain ⟨w, hw⟩ := exists_pair_of_key_mem
          (mem_sortedLevels.mp (hlev ▸ hx.1))
        rcases ht0 _ hw with h | h
        · exact h
        · exact absurd (by simpa using hx.2) (not_lt.mpr (le_of_lt h))
    have hfilter_hi :
        ((l0 :: rest).filter (fun L => decide (L > lvl))).min? = some b1 := by
      apply int_min?_eq_some
      · rw [List.mem_filter]
        exact ⟨hlev ▸ hmem1, by simpa using hb1⟩
      · intro x hx
        rw [List.mem_filter] at hx
        obtain ⟨w, hw⟩ := exists_pair_of_key_mem
          (mem_sortedLevels.mp (hlev ▸ hx.1))
        rcases ht1 _ hw with h | h
        · exact absurd (by simpa using hx.2) (not_lt.mpr (le_of_lt h))
        · exact h
    have hbounds : _bounds_for_level (l0 :: rest) lvl = some (b0, b1) := by
      unfold _bounds_for_level
      rw [if_neg (hlev ▸ hnotin), hfilter_lo, hfilter_hi]
    rw [hbounds]
    have hne01 : ¬ (b0 = b1) := by
      intro h
      subst h
      exact absurd (lt_trans hb0 hb1) (lt_irrefl b0)
    simp [hne01, lookupLevel_eq_of_mem hnd h0,
      lookupLevel_eq_of_mem hnd h1, hd0, hd1, lerpOut]

-- ----------------------------
-- C1 – C4
-- ----------------------------

/-- C1 (counterexample): with armor-pierce on, the code still subtracts 30%
of the defense term, so the spec's formula (which subtracts nothing) predicts
the wrong HP.  Attacker STR 35, defender VIT 80, rolls 15 vs 10,
vit_divisor 100, armor_pierce true: the code deals 39.76 damage (HP 100 →
60.24), the claim's formula predicts 40 damage (HP 100 → 60). -/
theorem C1_counterexample :
    (resolve_attack entA entD 15 10 .phys true 100).2.2.hp ≠
      max 0 (entD.hp - specDamageC1 35 (entD.VIT / 100) 15 10 true) := by
  norm_num [resolve_attack, entA, entD, specDamageC1, attack_stat_of,
    defense_stat_of, hitMultiplier]

/-- C1 (amended): on a hit (`roll_a > roll_b`), the damage equals
`max(0, ((roll_a - roll_b) + attack_stat) * type_multiplier -
(armor_pierce ? 0.3 : 1) * defense_term)` where `defense_term =
defense_stat / vit_scale_div` and `defense_stat` is VIT plus 20% of the
type-keyed secondary stat; the defender's hp becomes
`max(0, hp - damage)` and the attacker is untouched. -/
theorem C1_hit_damage (attacker defender : RuntimeEntity) (ra rb : ℚ)
    (t : AttackType) (p : Bool) (d : ℚ) (h : ra > rb) :
    (resolve_attack attacker defender ra rb t p d).1.hit = true ∧
    (resolve_attack attacker defender ra rb t p d).1.damage =
      some (max 0 (((ra - rb) + attack_stat_of attacker t) * hitMultiplier t ra
        - (if p then 3/10 else 1) * (defense_stat_of defender t / d))) ∧
    (resolve_attack attacker defender ra rb t p d).2.2.hp =
      max 0 (defender.hp -
        max 0 (((ra - rb) + attack_stat_of attacker t) * hitMultiplier t ra
          - (if p then 3/10 else 1) * (defense_stat_of defender t / d))) ∧
    (resolve_attack attacker defender ra rb t p d).2.1 = attacker := by
  unfold resolve_attack
  rw [if_pos h]
  cases p
  · simp
  · simp
    ring_nf
    exact ⟨trivial, trivial⟩

/-- C1 witness: the spec's concrete hit example (STR 35 vs VIT 80, rolls
15 vs 10, no armor-pierce) does deal exactly 39.2 damage. -/
theorem C1_hit_damage_witness :
    (15:ℚ) > 10 ∧
    (resolve_attack entA entD 15 10 .phys false 100).2.2.hp =
      max 0 (entD.hp - 196/5) := by
  refine ⟨by norm_num, ?_⟩
  have h := (C1_hit_damage entA entD 15 10 .phys false 100 (by norm_num)).2.2.1
  rw [h]
  norm_num [entA, entD, attack_stat_of, defense_stat_of, hitMultiplier]

/-- C2 (counterexample): for a magic exchange the counter-damage is scaled
by 0.7, so the attacker's hp does not decrease by exactly the counter.
Attacker INT 2, hp 50; defender VIT 100; rolls 5 vs 10; counter =
(10-5) + 1 - 2 = 4 > 0, but hp becomes 50 - 2.8 = 47.2, not 50 - 4 = 46. -/
theorem C2_counterexample :
    (resolve_attack entA2 entD2 5 10 .magic false 100).2.1.hp ≠
      entA2.hp - 4 := by
  norm_num [resolve_attack, entA2, entD2, attack_stat_of, defense_stat_of,
    counterMultiplier]

/-- C2 (amended): whenever `roll_a ≤ roll_b` (ties included) the resolver
takes the defender-holds branch: `hit = false`, the recorded defense value
is `counter = (roll_b - roll_a) + defense_term - attack_stat`; if
`counter > 0` the attacker's hp becomes `max(0, hp - counter * mult)` with
`mult` = 1 (phys) / 0.7 (magic) / 0.5 (ranged) — exactly `counter` only for
physical attacks — and the defender is untouched; if `counter ≤ 0` neither
entity changes. -/
theorem C2_defender_holds (attacker defender : RuntimeEntity) (ra rb : ℚ)
    (t : AttackType) (p : Bool) (d : ℚ) (h : ra ≤ rb) :
    (resolve_attack attacker defender ra rb t p d).1.hit = false ∧
    (resolve_attack attacker defender ra rb t p d).1.defense_value =
      some ((rb - ra) + defense_stat_of defender t / d -
        attack_stat_of attacker t) ∧
    ((rb - ra) + defense_stat_of defender t / d - attack_stat_of attacker t
        > 0 →
      (resolve_attack attacker defender ra rb t p d).2.1.hp =
        max 0 (attacker.hp -
          ((rb - ra) + defense_stat_of defender t / d -
            attack_stat_of attacker t) * counterMultiplier t) ∧
      (resolve_attack attacker defender ra rb t p d).2.2 = defender) ∧
    ((rb - ra) + defense_stat_of defender t / d - attack_stat_of attacker t
        ≤ 0 →
      (resolve_attack attacker defender ra rb t p d).2.1 = attacker ∧
      (resolve_attack attacker defender ra rb t p d).2.2 = defender) := by
  unfold resolve_attack
  rw [if_neg (by exact not_lt.mpr h)]
  dsimp only
  split_ifs with hpos
  · exact ⟨rfl, rfl, fun _ => ⟨rfl, rfl⟩,
      fun hle => absurd hpos (not_lt.mpr hle)⟩
  · exact ⟨rfl, rfl, fun hp2 => absurd hp2 hpos, fun _ => ⟨rfl, rfl⟩⟩

/-- C2 witness: the spec's clean-defense example — rolls 5 vs 12, attacker
STR 10 would need checking, here a tie 7 vs 7 with the low-INT attacker:
the branch is defender-holds and with counter 4 > 0 the attacker's hp drops
to 47.2 after the magic exchange 5 vs 10. -/
theorem C2_defender_holds_witness :
    (5:ℚ) ≤ 10 ∧
    (resolve_attack entA2 entD2 5 10 .magic false 100).1.hit = false ∧
    (resolve_attack entA2 entD2 5 10 .magic false 100).2.1.hp = 236/5 := by
  refine ⟨by norm_num, ?_, ?_⟩
  · exact (C2_defender_holds entA2 entD2 5 10 .magic false 100
      (by norm_num)).1
  · have h := ((C2_defender_holds entA2 entD2 5 10 .magic false 100
      (by norm_num)).2.2.1 (by
        norm_num [entA2, entD2, attack_stat_of, defense_stat_of])).1
    rw [h]
    norm_num [entA2, entD2, attack_stat_of, defense_stat_of,
      counterMultiplier]

/-- C3: for every input with non-negative starting hp, neither entity's hp
is negative after `resolve_attack`. -/
theorem C3_hp_floor (attacker defender : RuntimeEntity) (ra rb : ℚ)
    (t : AttackType) (p : Bool) (d : ℚ)
    (ha : 0 ≤ attacker.hp) (hd : 0 ≤ defender.hp) :
    0 ≤ (resolve_attack attacker defender ra rb t p d).2.1.hp ∧
    0 ≤ (resolve_attack attacker defender ra rb t p d).2.2.hp := by
  unfold resolve_attack
  dsimp only
  split_ifs <;>
    exact ⟨by first | exact ha | exact le_max_left 0 _,
           by first | exact hd | exact le_max_left 0 _⟩

/-- C3 witness: the hp-floor invariant at the concrete hit example. -/
theorem C3_hp_floor_witness :
    (0:ℚ) ≤ entA.hp ∧ (0:ℚ) ≤ entD.hp ∧
    (0 ≤ (resolve_attack entA entD 15 10 .phys false 100).2.1.hp ∧
     0 ≤ (resolve_attack entA entD 15 10 .phys false 100).2.2.hp) :=
  ⟨by norm_num [entA], by norm_num [entD],
    C3_hp_floor entA entD 15 10 .phys false 100
      (by norm_num [entA]) (by norm_num [entD])⟩

/-- C4: `resolve_attack` changes at most the `hp` field of the two entities:
every other field of both the attacker and the defender is returned
unchanged (the model is pure, so no other state exists to be modified). -/
theorem C4_frame (attacker defender : RuntimeEntity) (ra rb : ℚ)
    (t : AttackType) (p : Bool) (d : ℚ) :
    ((resolve_attack attacker defender ra rb t p d).2.1.name = attacker.name ∧
     (resolve_attack attacker defender ra rb t p d).2.1.kind = attacker.kind ∧
     (resolve_attack attacker defender ra rb t p d).2.1.level = attacker.level ∧
     (resolve_attack attacker defender ra rb t p d).2.1.hp_max = attacker.hp_max ∧
     (resolve_attack attacker defender ra rb t p d).2.1.mp_max = attacker.mp_max ∧
     (resolve_attack attacker defender ra rb t p d).2.1.STR = attacker.STR ∧
     (resolve_attack attacker defender ra rb t p d).2.1.AGI = attacker.AGI ∧
     (resolve_attack attacker defender ra rb t p d).2.1.INT = attacker.INT ∧
     (resolve_attack attacker defender ra rb t p d).2.1.DEX = attacker.DEX ∧
     (resolve_attack attacker defender ra rb t p d).2.1.VIT = attacker.VIT ∧
     (resolve_attack attacker defender ra rb t p d).2.1.mp = attacker.mp ∧
     (resolve_attack attacker defender ra rb t p d).2.1.base_attack = attacker.base_attack ∧
     (resolve_attack attacker defender ra rb t p d).2.1.zone = attacker.zone ∧
     (resolve_attack attacker defender ra rb t p d).2.1.drops = attacker.drops ∧
     (resolve_attack attacker defender ra rb t p d).2.1.abilities = attacker.abilities ∧
     (resolve_attack attacker defender ra rb t p d).2.1.extra = attacker.extra) ∧
    ((resolve_attack attacker defender ra rb t p d).2.2.name = defender.name ∧
     (resolve_attack attacker defender ra rb t p d).2.2.kind = defender.kind ∧
     (resolve_attack attacker defender ra rb t p d).2.2.level = defender.level ∧
     (resolve_attack attacker defender ra rb t p d).2.2.hp_max = defender.hp_max ∧
     (resolve_attack attacker defender ra rb t p d).2.2.mp_max = defender.mp_max ∧
     (resolve_attack attacker defender ra rb t p d).2.2.STR = defender.STR ∧
     (resolve_attack attacker defender ra rb t p d).2.2.AGI = defender.AGI ∧
     (resolve_attack attacker defender ra rb t p d).2.2.INT = defender.INT ∧
     (resolve_attack attacker defender ra rb t p d).2.2.DEX = defender.DEX ∧
     (resolve_attack attacker defender ra rb t p d).2.2.VIT = defender.VIT ∧
     (resolve_attack attacker defender ra rb t p d).2.2.mp = defender.mp ∧
     (resolve_attack attacker defender ra rb t p d).2.2.base_attack = defender.base_attack ∧
     (resolve_attack attacker defender ra rb t p d).2.2.zone = defender.zone ∧
     (resolve_attack attacker defender ra rb t p d).2.2.drops = defender.drops ∧
     (resolve_attack attacker defender ra rb t p d).2.2.abilities = defender.abilities ∧
     (resolve_attack attacker defender ra rb t p d).2.2.extra = defender.extra) := by
  unfold resolve_attack
  dsimp only
  split_ifs <;> simp

-- ----------------------------
-- C5, C6, C10
-- ----------------------------

/-- C5 (counterexample): resolving at an exact stored key does *not* return
the stored variant unchanged when a stat is fractional — `_round_stat` is
applied even at the knots.  A stored variant with `hp_max = 12.5` at level
5 resolves at level 5 to `hp_max = 12`. -/
theorem C5_counterexample :
    (interpolated_variant monsterHalf 5).map (Option.map VariantOut.hp_max)
      = some (some 12) ∧ (12 : ℚ) ≠ variantHalf.hp_max := by
  constructor
  · with_unfolding_all decide
  · with_unfolding_all decide

/-- C5 (amended): for a monster with a non-empty variants map with distinct
keys whose stored variants are clean — integer-valued core stats,
coercible `base_attack`, and the all-zero-stats-with-abilities fallback not
firing — resolving at an exact stored key returns the stored stats and
extra unchanged (level = the key, `base_attack` as its numeric coercion),
and resolving at or below the minimum (resp. at or above the maximum)
stored level returns the minimum (resp. maximum) boundary variant the same
way. -/
theorem C5_knot_exactness_and_clamping (m : Monster)
    (vs : List (ℤ × MonsterVariant))
    (hv : m.variants = some vs)
    (hnd : (vs.map Prod.fst).Nodup)
    (hclean : ∀ p ∈ vs, CleanVariant p.2) :
    (∀ k vr, (k, vr) ∈ vs →
      interpolated_variant m k = some (some (exactOut k vr))) ∧
    (∀ kmin vmin lvl, (kmin, vmin) ∈ vs → (∀ p ∈ vs, kmin ≤ p.1) →
      lvl ≤ kmin →
      interpolated_variant m lvl = some (some (exactOut kmin vmin))) ∧
    (∀ kmax vmax lvl, (kmax, vmax) ∈ vs → (∀ p ∈ vs, p.1 ≤ kmax) →
      kmax ≤ lvl →
      interpolated_variant m lvl = some (some (exactOut kmax vmax))) := by
  refine ⟨?_, ?_, ?_⟩
  · intro k vr hmem
    have hc := hclean _ hmem
    rw [interp_at_exact_key hv hnd hmem (extract_clean hc),
      roundedOut_statsOf hc]
  · intro kmin vmin lvl hmem hmin hlvl
    have hc := hclean _ hmem
    rw [interp_clamp_low hv hnd hmem hmin hlvl (extract_clean hc),
      roundedOut_statsOf hc]
  · intro kmax vmax lvl hmem hmax hlvl
    have hc := hclean _ hmem
    rw [interp_clamp_high hv hnd hmem hmax hlvl (extract_clean hc),
      roundedOut_statsOf hc]

/-- C5 witness: the demo monster (integral variants at levels 1 and 3)
resolves exactly at the knot 1 and clamps exactly at levels 0 and 9. -/
theorem C5_knot_exactness_and_clamping_witness :
    demoMonster.variants = some [(1, variantLo), (3, variantHi)] ∧
    (([(1, variantLo), (3, variantHi)] :
        List (ℤ × MonsterVariant)).map Prod.fst).Nodup ∧
    (∀ p ∈ ([(1, variantLo), (3, variantHi)] :
        List (ℤ × MonsterVariant)), CleanVariant p.2) ∧
    interpolated_variant demoMonster 1 = some (some (exactOut 1 variantLo)) ∧
    interpolated_variant demoMonster 0 = some (some (exactOut 1 variantLo)) ∧
    interpolated_variant demoMonster 9 = some (some (exactOut 3 variantHi)) := by
  have h := C5_knot_exactness_and_clamping demoMonster
    [(1, variantLo), (3, variantHi)] rfl (by with_unfolding_all decide)
    (by with_unfolding_all decide)
  refine ⟨rfl, by with_unfolding_all decide, by with_unfolding_all decide,
    ?_, ?_, ?_⟩
  · exact h.1 1 variantLo (by with_unfolding_all decide)
  · exact h.2.1 1 variantLo 0 (by with_unfolding_all decide)
      (by with_unfolding_all decide) (by with_unfolding_all decide)
  · exact h.2.2 3 variantHi 9 (by with_unfolding_all decide)
      (by with_unfolding_all decide) (by with_unfolding_all decide)

/-- C6 (counterexample): at an interpolation fraction of exactly 0.5 the
code takes the *upper* bound's extra (`t < 0.5` keeps the lower), not the
lower bound's as the claim states.  Level 2 between stored levels 1 and 3
yields the level-3 variant's extra. -/
theorem C6_counterexample :
    (interpolated_variant demoMonster 2).map (Option.map VariantOut.extra)
      = some (some [("label", ExtraVal.str "hi")]) ∧
    _extract_extra variantLo ≠ [("label", ExtraVal.str "hi")] := by
  constructor
  · with_unfolding_all decide
  · with_unfolding_all decide

/-- C6 (amended): when interpolating strictly between the two tightest
bracketing levels `b0 < lvl < b1`, the result's extra map is the lower
bound's when the fraction `t = (lvl-b0)/(b1-b0)` is below 0.5 and the
upper bound's when `t ≥ 0.5` — a fraction of exactly 0.5 ties in favour of
the *upper* bound's extra. -/
theorem C6_extra_selection (m : Monster) (vs : List (ℤ × MonsterVariant))
    (b0 b1 lvl : ℤ) (v0 v1 : MonsterVariant) (d0 d1 : StatsMap)
    (hv : m.variants = some vs)
    (hnd : (vs.map Prod.fst).Nodup)
    (h0 : (b0, v0) ∈ vs) (h1 : (b1, v1) ∈ vs)
    (hb0 : b0 < lvl) (hb1 : lvl < b1)
    (ht0 : ∀ p ∈ vs, p.1 ≤ b0 ∨ lvl < p.1)
    (ht1 : ∀ p ∈ vs, p.1 < lvl ∨ b1 ≤ p.1)
    (hd0 : _extract_variant_fields v0 = some d0)
    (hd1 : _extract_variant_fields v1 = some d1) :
    ∃ res, interpolated_variant m lvl = some (some res) ∧
      res.extra = (if ((lvl : ℚ) - (b0 : ℚ)) / ((b1 : ℚ) - (b0 : ℚ)) < 1/2
        then _extract_extra v0 else _extract_extra v1) := by
  refine ⟨lerpOut lvl b0 b1 d0 d1 (_extract_extra v0) (_extract_extra v1),
    interp_between hv hnd h0 h1 hb0 hb1 ht0 ht1 hd0 hd1, ?_⟩
  rfl

/-- C6 witness: interpolating the demo monster at level 2 (fraction exactly
0.5 between levels 1 and 3) selects the upper bound's extra. -/
theorem C6_extra_selection_witness :
    (1 : ℤ) < 2 ∧ (2 : ℤ) < 3 ∧
    (∃ res, interpolated_variant demoMonster 2 = some (some res) ∧
      res.extra = (if ((2 : ℚ) - (1 : ℚ)) / ((3 : ℚ) - (1 : ℚ)) < 1/2
        then _extract_extra variantLo else _extract_extra variantHi)) := by
  refine ⟨by decide, by decide, ?_⟩
  exact C6_extra_selection demoMonster [(1, variantLo), (3, variantHi)]
    1 3 2 variantLo variantHi (statsOf variantLo) (statsOf variantHi)
    rfl (by with_unfolding_all decide)
    (by with_unfolding_all decide) (by with_unfolding_all decide)
    (by with_unfolding_all decide) (by with_unfolding_all decide)
    (by with_unfolding_all decide) (by with_unfolding_all decide)
    (by with_unfolding_all decide) (by with_unfolding_all decide)

/-- C10: whenever the interpolator reads a stored variant whose seven core
stats are all zero but whose extra map carries a non-empty abilities list,
the stats it uses for the returned result — at an exact stored key, at a
clamped out-of-range level, or as either bound of an interpolated read —
are re-extracted from the ability strings (each positive extracted value
replacing the zero), even though the variants map is non-empty. -/
theorem C10_ability_stat_fallback (m : Monster)
    (vs : List (ℤ × MonsterVariant)) (k : ℤ) (v : MonsterVariant)
    (abs : List String) (ba : ℚ) (d : StatsMap)
    (hv : m.variants = some vs)
    (hnd : (vs.map Prod.fst).Nodup)
    (hmem : (k, v) ∈ vs)
    (hzero : coreStatsZero v)
    (habs : getAbilities (_extract_extra v) = abs)
    (habs_ne : abs ≠ [])
    (hba : floatOrZero v.base_attack = some ba)
    (hd_eq : d = mergePositive ⟨0, 0, 0, 0, 0, 0, 0, ba⟩
      (_extract_stats_from_abilities abs)) :
    _extract_variant_fields v = some d ∧
    interpolated_variant m k =
      some (some (roundedOut k d (_extract_extra v))) ∧
    (∀ lvl, (∀ p ∈ vs, k ≤ p.1) → lvl ≤ k →
      interpolated_variant m lvl =
        some (some (roundedOut k d (_extract_extra v)))) ∧
    (∀ lvl, (∀ p ∈ vs, p.1 ≤ k) → k ≤ lvl →
      interpolated_variant m lvl =
        some (some (roundedOut k d (_extract_extra v)))) ∧
    (∀ lvl b1 v1 d1, (b1, v1) ∈ vs → k < lvl → lvl < b1 →
      (∀ p ∈ vs, p.1 ≤ k ∨ lvl < p.1) →
      (∀ p ∈ vs, p.1 < lvl ∨ b1 ≤ p.1) →
      _extract_variant_fields v1 = some d1 →
      interpolated_variant m lvl = some (some
        (lerpOut lvl k b1 d d1 (_extract_extra v) (_extract_extra v1)))) ∧
    (∀ lvl b0 v0 d0, (b0, v0) ∈ vs → b0 < lvl → lvl < k →
      (∀ p ∈ vs, p.1 ≤ b0 ∨ lvl < p.1) →
      (∀ p ∈ vs, p.1 < lvl ∨ k ≤ p.1) →
      _extract_variant_fields v0 = some d0 →
      interpolated_variant m lvl = some (some
        (lerpOut lvl b0 k d0 d (_extract_extra v0) (_extract_extra v)))) := by
  subst hd_eq
  have hd : _extract_variant_fields v =
      some (mergePositive ⟨0, 0, 0, 0, 0, 0, 0, ba⟩
        (_extract_stats_from_abilities abs)) := by
    obtain ⟨z1, z2, z3, z4, z5, z6, z7⟩ := hzero
    have hcond : coreStatsZero v ∧ getAbilities (_extract_extra v) ≠ [] :=
      ⟨⟨z1, z2, z3, z4, z5, z6, z7⟩, by rw [habs]; exact habs_ne⟩
    unfold _extract_variant_fields
    simp [hba, hcond, habs, z1, z2, z3, z4, z5, z6, z7]
    intro h
    exact absurd h habs_ne
  refine ⟨hd, interp_at_exact_key hv hnd hmem hd, ?_, ?_, ?_, ?_⟩
  · intro lvl hmin hlvl
    exact interp_clamp_low hv hnd hmem hmin hlvl hd
  · intro lvl hmax hlvl
    exact interp_clamp_high hv hnd hmem hmax hlvl hd
  · intro lvl b1 v1 d1 h1 hk1 hk2 ht0 ht1 hd1
    exact interp_between hv hnd hmem h1 hk1 hk2 ht0 ht1 hd hd1
  · intro lvl b0 v0 d0 h0 hk1 hk2 ht0 ht1 hd0
    exact interp_between hv hnd h0 hmem hk1 hk2 ht0 ht1 hd0 hd

/-- C10 witness: the all-zero level-5 variant with abilities
`HP: 15/15`, `STR: 4`, `Attaque de base: 5`, stored next to an ordinary
level-9 variant, is read with the re-extracted stats at the exact key 5,
at the clamped level 3, and as the lower bound of the interpolated read
at level 7. -/
theorem C10_ability_stat_fallback_witness :
    monsterZeroPair.variants = some [(5, variantZero), (9, variantPlain)] ∧
    coreStatsZero variantZero ∧
    getAbilities (_extract_extra variantZero) =
      ["HP: 15/15", "STR: 4", "Attaque de base: 5"] ∧
    ((3 : ℤ) ≤ 5 ∧ (5 : ℤ) < 7 ∧ (7 : ℤ) < 9) ∧
    _extract_variant_fields variantZero =
      some (mergePositive ⟨0, 0, 0, 0, 0, 0, 0, 0⟩
        (_extract_stats_from_abilities
          ["HP: 15/15", "STR: 4", "Attaque de base: 5"])) ∧
    interpolated_variant monsterZeroPair 5 =
      some (some (roundedOut 5
        (mergePositive ⟨0, 0, 0, 0, 0, 0, 0, 0⟩
          (_extract_stats_from_abilities
            ["HP: 15/15", "STR: 4", "Attaque de base: 5"]))
        (_extract_extra variantZero))) ∧
    interpolated_variant monsterZeroPair 3 =
      some (some (roundedOut 5
        (mergePositive ⟨0, 0, 0, 0, 0, 0, 0, 0⟩
          (_extract_stats_from_abilities
            ["HP: 15/15", "STR: 4", "Attaque de base: 5"]))
        (_extract_extra variantZero))) ∧
    interpolated_variant monsterZeroPair 7 =
      some (some (lerpOut 7 5 9
        (mergePositive ⟨0, 0, 0, 0, 0, 0, 0, 0⟩
          (_extract_stats_from_abilities
            ["HP: 15/15", "STR: 4", "Attaque de base: 5"]))
        (statsOf variantPlain)
        (_extract_extra variantZero) (_extract_extra variantPlain))) := by
  have h := C10_ability_stat_fallback monsterZeroPair
    [(5, variantZero), (9, variantPlain)] 5 variantZero
    ["HP: 15/15", "STR: 4", "Attaque de base: 5"] 0
    (mergePositive ⟨0, 0, 0, 0, 0, 0, 0, 0⟩
      (_extract_stats_from_abilities
        ["HP: 15/15", "STR: 4", "Attaque de base: 5"]))
    rfl (by with_unfolding_all decide) (by with_unfolding_all decide)
    (by with_unfolding_all decide) (by with_unfolding_all decide)
    (by with_unfolding_all decide) (by with_unfolding_all decide) rfl
  refine ⟨rfl, by with_unfolding_all decide, by with_unfolding_all decide,
    ⟨by decide, by decide, by decide⟩, h.1, h.2.1, ?_, ?_⟩
  · exact h.2.2.1 3 (by with_unfolding_all decide) (by decide)
  · exact h.2.2.2.2.1 7 9 variantPlain (statsOf variantPlain)
      (by with_unfolding_all decide) (by decide) (by decide)
      (by with_unfolding_all decide) (by with_unfolding_all decide)
      (by with_unfolding_all decide)

-- ----------------------------
-- C8, C9
-- ----------------------------

/-- C8: two monster blocks with the same header name land under two
distinct keys — the first under the plain (stripped) name, the second
suffixed `" (2)"` — with both records fully present; nothing is
overwritten. -/
theorem C8_name_disambiguation (name : String) (n1 n2 : ℕ) :
    parse_monsters_bestiaire
      [.monsterHeader false name Option.none, .level n1, .statLine .STR "4",
       .monsterHeader false name Option.none, .level n2, .statLine .STR "7"]
    = [(_strip_md name,
        { name := _strip_md name,
          variants := some [((n1 : ℤ),
            { level := (n1 : ℤ), hp_max := 0, mp_max := 0, STR := 4,
              AGI := 0, INT := 0, DEX := 0, VIT := 0 })] }),
       (_strip_md name ++ " (2)",
        { name := _strip_md name,
          variants := some [((n2 : ℤ),
            { level := (n2 : ℤ), hp_max := 0, mp_max := 0, STR := 7,
              AGI := 0, INT := 0, DEX := 0, VIT := 0 })] })] := by
  have h4 : _as_float "4" = some 4 := by with_unfolding_all decide
  have h7 : _as_float "7" = some 7 := by with_unfolding_all decide
  have hs0 : _strip_md "" = "" := by with_unfolding_all decide
  have hne : ∀ x : String,
      ¬ (_strip_md name = _strip_md name ++ " (" ++ x ++ ")") :=
    fun x => safeKey_cand_ne _ x
  have hkey : _strip_md name ++ " (" ++ toString (2 : ℕ) ++ ")" =
      _strip_md name ++ " (2)" := by
    rw [String.append_assoc, String.append_assoc]
    with_unfolding_all rfl
  have hne2 : ¬ (_strip_md name = _strip_md name ++ " (2)") :=
    ne_append_two _
  have hne0 : ¬ (_strip_md name ++ " (2)" = "") := append_two_ne_empty _
  simp [parse_monsters_bestiaire, parseLine, flush_monsterP, flush_variantP,
    extractStatsAbilitiesP, ensureVariantLevel, initState, _safe_key,
    safeKeyAux, pyDictSet, pyDictGet, mkExtra, coreStatName, h4, h7, hs0,
    hne, hkey, hne2, hne0]

/-- C9: inside one monster block, a second explicit level header with the
same level N silently replaces the earlier variant at N — the result holds
a single entry at N carrying the later stat block (STR 9, not STR 4). -/
theorem C9_same_level_overwrite (name : String) (n : ℕ) :
    parse_monsters_bestiaire
      [.monsterHeader false name Option.none, .level n, .statLine .STR "4",
       .level n, .statLine .STR "9"]
    = [(_strip_md name,
        { name := _strip_md name,
          variants := some [((n : ℤ),
            { level := (n : ℤ), hp_max := 0, mp_max := 0, STR := 9,
              AGI := 0, INT := 0, DEX := 0, VIT := 0 })] })] := by
  have h4 : _as_float "4" = some 4 := by with_unfolding_all decide
  have h9 : _as_float "9" = some 9 := by with_unfolding_all decide
  have hs0 : _strip_md "" = "" := by with_unfolding_all decide
  simp [parse_monsters_bestiaire, parseLine, flush_monsterP, flush_variantP,
    extractStatsAbilitiesP, ensureVariantLevel, initState, _safe_key,
    safeKeyAux, pyDictSet, pyDictGet, mkExtra, coreStatName, h4, h9, hs0]

-- ----------------------------
-- C7
-- ----------------------------

/-- C7 (counterexample): the round-trip is not field-for-field equal on a
parser-produced compendium — the scanner stores `base_attack` as the raw
string (here `"5"`), and `from_dict` re-reads it as the float `5.0`, a
different Python value. -/
theorem C7_counterexample :
    Compendium.from_dict (Compendium.to_dict compendiumStr5) ≠
      some compendiumStr5 := by
  with_unfolding_all decide

/-- C7 (amended): for every compendium whose monster and skill keys are
distinct, whose monsters carry a (possibly empty) variants dict with
distinct integer keys, and whose variant `base_attack` values are
float-convertible, `from_dict ∘ to_dict` reproduces every record
field-for-field — integer level keys round-trip exactly (via
`int(str(k)) = k`) — except that each `base_attack` comes back as the
float value of the stored string. -/
theorem C7_roundtrip_floatified (c : Compendium)
    (hmn : (c.monsters.map Prod.fst).Nodup)
    (hsn : (c.skills.map Prod.fst).Nodup)
    (hv : ∀ p ∈ c.monsters, ∃ vs, p.2.variants = some vs ∧
      (vs.map Prod.fst).Nodup ∧ ∀ q ∈ vs, baOk q.2.base_attack) :
    Compendium.from_dict (Compendium.to_dict c) =
      some (floatifyCompendium c) := by
  unfold Compendium.from_dict Compendium.to_dict floatifyCompendium
  have hm := monsters_foldlM_roundtrip c.monsters [] hmn (by simp) hv
  have hsk := foldl_pyDictSet_fresh c.skills [] hsn (by simp)
  simp only [Option.bind_eq_bind, Option.pure_def] at hm ⊢
  simp only [hm, hsk, Option.some_bind, List.nil_append]

/-- C7 witness: the concrete string-`"5"` compendium round-trips to its
floatified form. -/
theorem C7_roundtrip_floatified_witness :
    ((compendiumStr5.monsters.map Prod.fst).Nodup ∧
     (compendiumStr5.skills.map Prod.fst).Nodup) ∧
    Compendium.from_dict (Compendium.to_dict compendiumStr5) =
      some (floatifyCompendium compendiumStr5) := by
  refine ⟨⟨by with_unfolding_all decide, by with_unfolding_all decide⟩, ?_⟩
  exact C7_roundtrip_floatified compendiumStr5
    (by with_unfolding_all decide) (by with_unfolding_all decide)
    (by
      intro p hp
      have h' := List.mem_singleton.mp hp
      subst h'
      exact ⟨_, rfl, by with_unfolding_all decide,
        by with_unfolding_all decide⟩)

end Bofuri
